import Mathlib

/-!
# Verification of the senaka agent-loop core

Shallow embedding, in Lean 4, of the agent-loop core of the senaka
repository (TypeScript), together with theorems settling the frozen claims
about it.  Each definition is translated from the TypeScript source named
in its doc comment; JavaScript strings are modelled as Lean `String`
(sequences of characters; the repository only manipulates them
code-point-wise), JavaScript numbers that the core uses as integers are
modelled as `Nat`/`Int`, thrown exceptions are modelled with
`Except String`, and the effect order of the stage handlers (event
publications and session writes) is modelled as an explicit effect trace.
-/

namespace Senaka

/-! ## String preliminaries

Models of the JavaScript string primitives the source uses.
`String.toLower`, `String.trim`, `String.startsWith` from the Lean library
model `toLowerCase`, `trim`, `startsWith` (the sources only apply them to
ASCII-relevant data).  `strContains` models `String.prototype.includes`,
and `countChar` models `(s.match(/<c>/g) ?? []).length`. -/

/-- The single-quote character (written by code point to keep sources plain). -/
def squoteChar : Char := Char.ofNat 39

/-- JavaScript `s.toLowerCase()` (character-wise; the sources only rely on
its ASCII behaviour, which `Char.toLower` models). -/
def jsToLower (s : String) : String :=
  String.mk (s.data.map Char.toLower)

/-- JavaScript `s.trim()` (on the whitespace characters that can occur in
the data the core handles). -/
def jsTrim (s : String) : String :=
  String.mk (((s.data.dropWhile Char.isWhitespace).reverse.dropWhile Char.isWhitespace).reverse)

/-- JavaScript `s.startsWith(pre)`. -/
def jsStartsWith (s pre : String) : Bool :=
  List.isPrefixOf pre.data s.data

/-- JavaScript falsiness of a string / `s.length === 0`. -/
def jsIsEmpty (s : String) : Bool :=
  s.data.isEmpty

/-- JavaScript `s.length` (code points; identical to UTF-16 length on the
basic-multilingual-plane text the core handles). -/
def jsLength (s : String) : Nat :=
  s.data.length

/-- JavaScript `s.split(sep)` for a one-character separator, on character
lists; the accumulator is the pending segment. -/
def splitOnCharAux (sep : Char) : List Char → List Char → List (List Char)
  | [], current => [current]
  | c :: rest, current =>
    if c = sep then current :: splitOnCharAux sep rest []
    else splitOnCharAux sep rest (current ++ [c])

/-- `pat.isPrefixOf` at every suffix: JavaScript `hay.includes(pat)`. -/
def strContainsAux (pat : List Char) : List Char → Bool
  | [] => pat.isEmpty
  | c :: rest => List.isPrefixOf pat (c :: rest) || strContainsAux pat rest

/-- JavaScript `hay.includes(pat)`. -/
def strContains (hay pat : String) : Bool :=
  strContainsAux pat.data hay.data

/-- Number of occurrences of character `c` in `s`:
JavaScript `(s.match(/c/g) ?? []).length` for a single-character pattern. -/
def countChar (c : Char) (s : String) : Nat :=
  s.data.count c

namespace Helpers

/-!
### `src/runtime/agent-loop/helpers.ts` — command policy actually imported by `llm.ts`

`llm.ts` imports `validateCommandSafety` from `./helpers.js`; this is the
gate executed on every worker `call_tool` command (both inside
`askWorkerForAction`'s parse hook and inside `runShellCommand`).
-/

/-- helpers.ts:283 — the `denied` array, verbatim (spaces included). -/
def deniedKeywords : List String :=
  [" rm ", "delete", " drop ", "wipe", "shutdown", "reboot", "mkfs", " dd ",
   " kill ", "pkill", "git push"]

/-- helpers.ts:281-295 `validateCommandSafety(cmd, maxPipes)`.

The source lowercases the command, then for each `keyword` of `denied`
throws on `lowered.includes(keyword.trim())` (note the `.trim()`: the
surrounding spaces in the array never reach the test), then counts every
`|` character via `cmd.match(/\|/g)` and throws when the count exceeds
`maxPipes`.  A thrown `Error(msg)` is modelled as `Except.error msg`. -/
def validateCommandSafety (cmd : String) (maxPipes : Nat) : Except String Unit :=
  let lowered := jsToLower cmd
  match deniedKeywords.find? (fun keyword => strContains lowered (jsTrim keyword)) with
  | some keyword => Except.error ("unsafe command blocked: " ++ jsTrim keyword)
  | none =>
    let pipeCount := countChar '|' cmd
    if pipeCount > maxPipes then
      Except.error ("worker command can include at most " ++ toString maxPipes ++ " pipe(s)")
    else
      Except.ok ()

end Helpers

namespace CommandSafety

/-!
### `src/runtime/agent-loop/command-safety.ts` — the tokenizing gate

This module implements the gate of spec §4.A exactly.  Its header comment
documents `src/runtime/agent-loop/llm.ts` as its (sole) reverse
dependency, but `llm.ts` in fact imports `validateCommandSafety` from
`helpers.ts`, so this module is not reached from the loop.
-/

/-- command-safety.ts:17-29. -/
def FORBIDDEN_EXECUTABLES : List String :=
  ["rm", "dd", "mkfs", "shutdown", "reboot", "halt", "poweroff", "kill",
   "pkill", "del", "erase"]

/-- command-safety.ts:31. -/
def WRAPPER_EXECUTABLES : List String := ["sudo", "command", "nohup", "time"]

/-- command-safety.ts:33-36 `ParsedSegment`. -/
structure ParsedSegment where
  raw : String
  tokens : List String
  deriving DecidableEq

/-- command-safety.ts:38-42 `basenameToken`: replace every backslash with
`/`, split on `/`, take the last part (or `""`), trim, lowercase. -/
def basenameToken (token : String) : String :=
  let normalized := token.data.map (fun c => if c = '\\' then '/' else c)
  let parts := splitOnCharAux '/' normalized []
  jsToLower (jsTrim (String.mk ((parts.getLast?).getD [])))

/-- The `pushCurrent` closure of `tokenizeShellWords`
(command-safety.ts:50-56): trim the pending characters, keep if non-empty. -/
def pushCurrent (tokens : List String) (current : List Char) : List String :=
  let value := jsTrim (String.mk current)
  if jsIsEmpty value then tokens else tokens ++ [value]

/-- Character loop of `tokenizeShellWords` (command-safety.ts:58-91), with
the mutable `tokens`/`current`/`quote`/`escaped` state made explicit.
`Char.isWhitespace` models the `/\s/` test (identical on the characters
the loop can meet in shell commands). -/
def tokenizeAux : List Char → List String → List Char → Option Char → Bool → List String
  | [], tokens, current, _, _ => pushCurrent tokens current
  | ch :: rest, tokens, current, quote, escaped =>
    if escaped then
      tokenizeAux rest tokens (current ++ [ch]) quote false
    else if ch = '\\' then
      tokenizeAux rest tokens current quote true
    else
      match quote with
      | some q =>
        if ch = q then tokenizeAux rest tokens current none false
        else tokenizeAux rest tokens (current ++ [ch]) (some q) false
      | none =>
        if ch = squoteChar ∨ ch = '"' then
          tokenizeAux rest tokens current (some ch) false
        else if ch.isWhitespace then
          tokenizeAux rest (pushCurrent tokens current) [] none false
        else
          tokenizeAux rest tokens (current ++ [ch]) none false

/-- command-safety.ts:44-95 `tokenizeShellWords`. -/
def tokenizeShellWords (input : String) : List String :=
  tokenizeAux input.data [] [] none false

/-- The `pushSegment` closure of `splitSegments` (command-safety.ts:103-110):
trim the pending characters and, when non-empty, append a parsed segment. -/
def pushSegment (segments : List ParsedSegment) (current : List Char) : List ParsedSegment :=
  let raw := jsTrim (String.mk current)
  if jsIsEmpty raw then segments
  else segments ++ [{ raw := raw, tokens := tokenizeShellWords raw }]

/-- Character loop of `splitSegments` (command-safety.ts:112-155).  The
one-character lookahead `next` of the source is the head of the remaining
list; the `idx += 1` that follows a double operator is the extra
list-head consumed in that branch. -/
def splitAux : List Char → List ParsedSegment → List Char → Option Char → Bool → List ParsedSegment
  | [], segments, current, _, _ => pushSegment segments current
  | ch :: rest, segments, current, quote, escaped =>
    if escaped then
      splitAux rest segments (current ++ [ch]) quote false
    else if ch = '\\' then
      splitAux rest segments (current ++ [ch]) quote true
    else
      match quote with
      | some q =>
        splitAux rest segments (current ++ [ch]) (if ch = q then none else some q) false
      | none =>
        if ch = squoteChar ∨ ch = '"' then
          splitAux rest segments (current ++ [ch]) (some ch) false
        else
          match rest with
          | next :: rest2 =>
            if (ch = '&' ∧ next = '&') ∨ (ch = '|' ∧ next = '|') then
              splitAux rest2 (pushSegment segments current) [] none false
            else if ch = ';' ∨ ch = '\n' ∨ ch = '\r' ∨ ch = '|' ∨ ch = '&' then
              splitAux (next :: rest2) (pushSegment segments current) [] none false
            else
              splitAux (next :: rest2) segments (current ++ [ch]) none false
          | [] =>
            if ch = ';' ∨ ch = '\n' ∨ ch = '\r' ∨ ch = '|' ∨ ch = '&' then
              pushSegment segments current
            else
              pushSegment segments (current ++ [ch])

/-- command-safety.ts:97-159 `splitSegments`. -/
def splitSegments (cmd : String) : List ParsedSegment :=
  splitAux cmd.data [] [] none false

/-- Character loop of `countPipes` (command-safety.ts:161-196): count `|`
outside quotes, unescaped, whose following character is not `|`. -/
def countPipesAux : List Char → Nat → Option Char → Bool → Nat
  | [], pipes, _, _ => pipes
  | ch :: rest, pipes, quote, escaped =>
    if escaped then
      countPipesAux rest pipes quote false
    else if ch = '\\' then
      countPipesAux rest pipes quote true
    else
      match quote with
      | some q =>
        countPipesAux rest pipes (if ch = q then none else some q) false
      | none =>
        if ch = squoteChar ∨ ch = '"' then
          countPipesAux rest pipes (some ch) false
        else if ch = '|' ∧ rest.head? ≠ some '|' then
          countPipesAux rest (pipes + 1) none false
        else
          countPipesAux rest pipes none false

/-- command-safety.ts:161-196 `countPipes`. -/
def countPipes (cmd : String) : Nat :=
  countPipesAux cmd.data 0 none false

/-- command-safety.ts:202 — the `/^[A-Za-z_][A-Za-z0-9_]*=.*/` test, tail
after the first character: alphanumeric/underscore characters until an `=`. -/
def keyValueTail : List Char → Bool
  | [] => false
  | c :: rest =>
    if c = '=' then true
    else if c.isAlphanum ∨ c = '_' then keyValueTail rest
    else false

/-- The `KEY=VALUE` token test of command-safety.ts:202 and 216. -/
def isKeyValueToken (t : String) : Bool :=
  match t.data with
  | [] => false
  | c :: rest => (c.isAlpha ∨ c = '_') && keyValueTail rest

/-- Number of leading tokens skipped by the inner `while` of the `env`
branch (command-safety.ts:216-218): flags and `K=V` arguments. -/
def envSkipCount : List String → Nat
  | [] => 0
  | t :: rest =>
    if jsStartsWith t "-" ∨ isKeyValueToken t then 1 + envSkipCount rest else 0

/-- Main `while` of `extractExecutableInfo` (command-safety.ts:206-225).
The Boolean argument records that the previous token was `env` and its
flag/`K=V` arguments are still being skipped — this encodes the source's
inner `while` followed by `continue` as one token-at-a-time loop; a token
that is neither a flag nor `K=V` falls through to the ordinary handling,
exactly where the source's outer loop resumes. -/
def extractExecAux : List String → Nat → Bool → Option String × Nat
  | [], idx, _ => (none, idx)
  | t :: rest, idx, envMode =>
    if envMode ∧ (jsStartsWith t "-" ∨ isKeyValueToken t) then
      extractExecAux rest (idx + 1) true
    else
      let executable := basenameToken t
      if WRAPPER_EXECUTABLES.contains executable then
        extractExecAux rest (idx + 1) false
      else if executable = "env" then
        extractExecAux rest (idx + 1) true
      else
        (some executable, idx + 1)

/-- Number of leading `KEY=VALUE` tokens (command-safety.ts:201-204). -/
def leadingKeyValueCount : List String → Nat
  | [] => 0
  | t :: rest => if isKeyValueToken t then 1 + leadingKeyValueCount rest else 0

/-- command-safety.ts:198-226 `extractExecutableInfo`. -/
def extractExecutableInfo (tokens : List String) : Option String × Nat :=
  let k := leadingKeyValueCount tokens
  extractExecAux (tokens.drop k) k false

/-- command-safety.ts:228-237 `findFirstSubcommand`. -/
def findFirstSubcommand (tokens : List String) (startIndex : Nat) : Option String :=
  ((tokens.drop startIndex).find?
      (fun t => !(jsIsEmpty (jsTrim t)) && !(jsStartsWith (jsTrim t) "-"))).map
    (fun t => basenameToken (jsTrim t))

/-- Body of the `for (const segment of segments)` loop of
command-safety.ts:256-272 for one segment. -/
def checkSegment (segment : ParsedSegment) : Except String Unit :=
  match extractExecutableInfo segment.tokens with
  | (none, _) => Except.ok ()
  | (some executable, argIndex) =>
    if FORBIDDEN_EXECUTABLES.contains executable then
      Except.error ("unsafe command blocked: " ++ executable)
    else if executable = "git" then
      if findFirstSubcommand segment.tokens argIndex = some "push" then
        Except.error "unsafe command blocked: git push"
      else Except.ok ()
    else Except.ok ()

/-- The segment loop of command-safety.ts:256-272: first failure wins. -/
def checkSegments : List ParsedSegment → Except String Unit
  | [] => Except.ok ()
  | s :: rest =>
    match checkSegment s with
    | Except.error e => Except.error e
    | Except.ok _ => checkSegments rest

/-- command-safety.ts:244-273 `validateCommandSafety`. -/
def validateCommandSafety (cmd : String) (maxPipes : Nat) : Except String Unit :=
  let trimmed := jsTrim cmd
  if jsIsEmpty trimmed then
    Except.error "unsafe command blocked: empty command"
  else if countPipes trimmed > maxPipes then
    Except.error ("worker command can include at most " ++ toString maxPipes ++ " pipe(s)")
  else
    checkSegments (splitSegments trimmed)

end CommandSafety

/-! ## Claims C1 and C2 — the command safety gate -/

/-- **C1.** The claim states that the gate actually invoked on worker
`call_tool` commands — the `validateCommandSafety` that `llm.ts` imports
from `helpers.ts` — fails every command whose segment's primary token is a
forbidden executable (`rm`, `dd`, `mkfs`, `shutdown`, `reboot`, `halt`,
`poweroff`, `kill`, `pkill`, `del`, `erase`).  This is false in the code:
the imported gate is a lowercase-substring denylist whose keywords do not
cover `halt`, `poweroff`, `del` or `erase`, so it accepts the commands
below although each has a forbidden executable as its segment's primary
token; the tokenizing gate in `command-safety.ts` (which implements the
spec §4.A behaviour and documents `llm.ts` as its dependent, but is not
imported by it) rejects them.  The last conjunct records that the one
success case of the claim, `env A=1 ls`, does hold for both gates. -/
theorem invoked_gate_admits_forbidden_executables :
    Helpers.validateCommandSafety "halt" 2 = Except.ok ()
    ∧ Helpers.validateCommandSafety "poweroff" 2 = Except.ok ()
    ∧ Helpers.validateCommandSafety "del x" 2 = Except.ok ()
    ∧ Helpers.validateCommandSafety "erase x" 2 = Except.ok ()
    ∧ CommandSafety.validateCommandSafety "halt" 2
        = Except.error "unsafe command blocked: halt"
    ∧ CommandSafety.validateCommandSafety "poweroff" 2
        = Except.error "unsafe command blocked: poweroff"
    ∧ Helpers.validateCommandSafety "env A=1 ls" 2 = Except.ok ()
    ∧ CommandSafety.validateCommandSafety "env A=1 ls" 2 = Except.ok () :=
  ⟨rfl, rfl, rfl, rfl, rfl, rfl, rfl, rfl⟩

/-- **C2, counterexample.** The claim states that the gate counts only `|`
characters that are not part of `||`, outside quotes and unescaped, so a
command whose `|`s occur only as `||` is never rejected for its pipe
count.  False: the invoked gate (`helpers.ts`) counts every `|` character
(`cmd.match(/\|/g)`), so `true || false` is rejected when `maxPipes = 1`;
and even the unused tokenizing gate's `countPipes` assigns `true || false`
one pipe (it counts the second bar of each `||`, whose successor is not a
bar), rejecting it when `maxPipes = 0`. -/
theorem invoked_gate_rejects_double_pipe_for_pipe_count :
    Helpers.validateCommandSafety "true || false" 1
      = Except.error "worker command can include at most 1 pipe(s)"
    ∧ CommandSafety.countPipes "true || false" = 1
    ∧ CommandSafety.validateCommandSafety "true || false" 0
        = Except.error "worker command can include at most 0 pipe(s)" :=
  ⟨rfl, rfl, rfl⟩

/-- **C2, amended.** What the invoked gate actually does about pipes: for
a command containing none of the denylist substrings, it succeeds exactly
when the number of `|` characters of the command — quoted, escaped and
`||` bars included — is at most `maxPipes`. -/
theorem invoked_gate_pipe_count_characterization (cmd : String) (maxPipes : Nat)
    (h : ∀ k ∈ Helpers.deniedKeywords, strContains (jsToLower cmd) (jsTrim k) = false) :
    Helpers.validateCommandSafety cmd maxPipes = Except.ok ()
      ↔ countChar '|' cmd ≤ maxPipes := by
  have hfind : Helpers.deniedKeywords.find?
      (fun keyword => strContains (jsToLower cmd) (jsTrim keyword)) = none := by
    rw [List.find?_eq_none]
    intro k hk
    simp [h k hk]
  unfold Helpers.validateCommandSafety
  simp only [hfind]
  by_cases hp : countChar '|' cmd > maxPipes
  · simp only [hp, if_true]
    constructor
    · intro hcontra
      exact absurd hcontra (by simp)
    · intro hle
      omega
  · simp only [hp, if_false]
    simp only [true_iff]
    omega

/-- Witness for `invoked_gate_pipe_count_characterization`: with
`maxPipes = 2` (the configuration default) the invoked gate accepts
`true || false`. -/
theorem invoked_gate_pipe_count_characterization_witness :
    (∀ k ∈ Helpers.deniedKeywords,
        strContains (jsToLower "true || false") (jsTrim k) = false)
    ∧ Helpers.validateCommandSafety "true || false" 2 = Except.ok () :=
  ⟨by decide, (invoked_gate_pipe_count_characterization "true || false" 2 (by decide)).mpr (by decide)⟩

namespace Llm

/-- The argument tuple that `runShellCommand` hands to the external
sandbox executor `runInSandbox` when the gate passes. -/
structure SandboxInvocation where
  cmd : String
  workspaceGroupId : String
  deriving DecidableEq

/-- llm.ts:136-152 `runShellCommand`: apply the gate imported from
`helpers.ts`, then invoke the external sandbox executor.  The executor is
outside the core, so a successful run is modelled as the invocation that
would be passed to it (the configuration options forwarded verbatim are
omitted). -/
def runShellCommand (cmd : String) (maxPipes : Nat) (workspaceGroupId : String) :
    Except String SandboxInvocation :=
  match Helpers.validateCommandSafety cmd maxPipes with
  | Except.error e => Except.error e
  | Except.ok _ => Except.ok { cmd := cmd, workspaceGroupId := workspaceGroupId }

end Llm

/-- The trimmed forms of the `denied` keywords of `helpers.ts`. -/
def trimmedDeniedKeywords : List String :=
  ["rm", "delete", "drop", "wipe", "shutdown", "reboot", "mkfs", "dd",
   "kill", "pkill", "git push"]

/-- **C10.** The gate applied to worker commands is a case-insensitive
substring denylist: whenever the lowercased command contains one of the
trimmed denylist keywords anywhere — also inside unrelated words —
`helpers.ts`'s `validateCommandSafety` throws, and `runShellCommand`
therefore never reaches the sandbox executor for such a command. -/
theorem invoked_gate_blocks_denied_substrings (cmd : String) (maxPipes : Nat)
    (workspaceGroupId : String)
    (h : ∃ k ∈ trimmedDeniedKeywords, strContains (jsToLower cmd) k = true) :
    (∃ e, Helpers.validateCommandSafety cmd maxPipes = Except.error e)
    ∧ ∀ inv, Llm.runShellCommand cmd maxPipes workspaceGroupId ≠ Except.ok inv := by
  obtain ⟨k, hk, hcont⟩ := h
  have hmap : Helpers.deniedKeywords.map jsTrim = trimmedDeniedKeywords := by decide
  have hk' : k ∈ Helpers.deniedKeywords.map jsTrim := by rw [hmap]; exact hk
  obtain ⟨k0, hk0, hek⟩ := List.mem_map.mp hk'
  have hsome : (Helpers.deniedKeywords.find?
      (fun keyword => strContains (jsToLower cmd) (jsTrim keyword))).isSome := by
    rw [List.find?_isSome]
    exact ⟨k0, hk0, by rw [hek]; exact hcont⟩
  obtain ⟨kf, hkf⟩ := Option.isSome_iff_exists.mp hsome
  refine ⟨⟨"unsafe command blocked: " ++ jsTrim kf, ?_⟩, ?_⟩
  · unfold Helpers.validateCommandSafety
    simp only [hkf]
  · intro inv hinv
    unfold Llm.runShellCommand at hinv
    unfold Helpers.validateCommandSafety at hinv
    simp only [hkf] at hinv
    exact Except.noConfusion hinv

/-- Witness for `invoked_gate_blocks_denied_substrings`: the harmless
command `grep format f` contains the substring `rm` (inside `format`) and
is blocked before it can reach the sandbox. -/
theorem invoked_gate_blocks_denied_substrings_witness :
    (∃ k ∈ trimmedDeniedKeywords, strContains (jsToLower "grep format f") k = true)
    ∧ (∃ e, Helpers.validateCommandSafety "grep format f" 2 = Except.error e)
    ∧ ∀ inv, Llm.runShellCommand "grep format f" 2 "group" ≠ Except.ok inv := by
  have h : ∃ k ∈ trimmedDeniedKeywords, strContains (jsToLower "grep format f") k = true := by
    decide
  obtain ⟨h1, h2⟩ := invoked_gate_blocks_denied_substrings "grep format f" 2 "group" h
  exact ⟨h, h1, h2⟩

/-! ## Data model (`src/runtime/agent-loop/types.ts`) -/

/-- types.ts `EvidenceItem.kind`: a closed three-variant union. -/
inductive EvidenceKind
  | tool_result
  | user_answer
  | main_guidance
  deriving DecidableEq

/-- The string form of an evidence kind (the TypeScript union is over these
literal strings). -/
def EvidenceKind.toStr : EvidenceKind → String
  | .tool_result => "tool_result"
  | .user_answer => "user_answer"
  | .main_guidance => "main_guidance"

/-- types.ts `EvidenceItem`. -/
structure EvidenceItem where
  kind : EvidenceKind
  summary : String
  detail : Option String := none
  deriving DecidableEq

/-- The deduplication key computed in `summarizeEvidenceForMain`
(helpers.ts:188): the TypeScript template string `kind:summary`. -/
def evidenceKey (item : EvidenceItem) : String :=
  item.kind.toStr ++ ":" ++ item.summary

/-- The output line pushed by `summarizeEvidenceForMain` (helpers.ts:193). -/
def evidenceLine (item : EvidenceItem) : String :=
  "[" ++ item.kind.toStr ++ "] " ++ item.summary

/-- types.ts `ToolResult`. -/
structure ToolResult where
  cmd : String
  exitCode : Int
  stdout : String
  stderr : String
  runner : String
  workspaceGroupId : String
  deriving DecidableEq

namespace Helpers

/-- The `for (const item of evidence)` loop of `summarizeEvidenceForMain`
(helpers.ts:183-200) with the mutable `seen` set and the current output
length `n` made explicit.  The source pushes the formatted line and then
breaks once the output holds 12 entries. -/
def summarizeAux : List EvidenceItem → List String → Nat → List String
  | [], _, _ => []
  | item :: rest, seen, n =>
    let key := evidenceKey item
    if seen.contains key then summarizeAux rest seen n
    else
      let line := evidenceLine item
      if n + 1 ≥ 12 then [line]
      else line :: summarizeAux rest (key :: seen) (n + 1)

/-- helpers.ts:183-200 `summarizeEvidenceForMain`. -/
def summarizeEvidenceForMain (evidence : List EvidenceItem) : List String :=
  summarizeAux evidence [] 0

end Helpers

/-! ## Claim C7 — the evidence summary -/

/-- Insertion-order deduplication of evidence items by `evidenceKey`,
given an initial set of already-seen keys.  This is the specification-side
description (§4.I / §8.4 of the spec) against which the source loop is
proved. -/
def dedupEvidenceAux : List EvidenceItem → List String → List EvidenceItem
  | [], _ => []
  | item :: rest, seen =>
    if seen.contains (evidenceKey item) then dedupEvidenceAux rest seen
    else item :: dedupEvidenceAux rest (evidenceKey item :: seen)

/-- Insertion-order deduplication of evidence items by `evidenceKey`. -/
def dedupEvidence (l : List EvidenceItem) : List EvidenceItem :=
  dedupEvidenceAux l []

/-- The source loop equals `take (12 - n)` of the deduplicated tail. -/
theorem summarizeAux_eq_dedup (l : List EvidenceItem) :
    ∀ (seen : List String) (n : Nat), n < 12 →
      Helpers.summarizeAux l seen n
        = ((dedupEvidenceAux l seen).take (12 - n)).map evidenceLine := by
  induction l with
  | nil => intro seen n _; simp [Helpers.summarizeAux, dedupEvidenceAux]
  | cons item rest ih =>
    intro seen n hn
    by_cases hc : seen.contains (evidenceKey item)
    · rw [Helpers.summarizeAux, dedupEvidenceAux, if_pos hc, if_pos hc]
      exact ih seen n hn
    · rw [Helpers.summarizeAux, dedupEvidenceAux, if_neg hc, if_neg hc]
      by_cases hstop : n + 1 ≥ 12
      · have hn11 : n = 11 := by omega
        subst hn11
        simp [hstop]
      · have h12 : 12 - n = (12 - (n + 1)) + 1 := by omega
        rw [if_neg hstop, h12, List.take_succ_cons, List.map_cons]
        rw [ih (evidenceKey item :: seen) (n + 1) (by omega)]

/-- Every item produced by `dedupEvidenceAux` has a key outside `seen`. -/
theorem dedupEvidenceAux_key_not_seen (l : List EvidenceItem) :
    ∀ (seen : List String) (x : EvidenceItem), x ∈ dedupEvidenceAux l seen →
      ¬ seen.contains (evidenceKey x) := by
  induction l with
  | nil => intro seen x hx; simp [dedupEvidenceAux] at hx
  | cons item rest ih =>
    intro seen x hx
    by_cases hc : seen.contains (evidenceKey item)
    · rw [dedupEvidenceAux, if_pos hc] at hx
      exact ih seen x hx
    · rw [dedupEvidenceAux, if_neg hc] at hx
      rcases List.mem_cons.mp hx with hx' | hx'
      · subst hx'; simpa using hc
      · have hnot := ih (evidenceKey item :: seen) x hx'
        intro hmem
        apply hnot
        rw [List.elem_iff] at hmem ⊢
        exact List.mem_cons_of_mem _ hmem

/-- The deduplicated list has pairwise distinct keys. -/
theorem dedupEvidenceAux_pairwise (l : List EvidenceItem) :
    ∀ (seen : List String),
      (dedupEvidenceAux l seen).Pairwise (fun a b => evidenceKey a ≠ evidenceKey b) := by
  induction l with
  | nil => intro seen; simp [dedupEvidenceAux]
  | cons item rest ih =>
    intro seen
    by_cases hc : seen.contains (evidenceKey item)
    · rw [dedupEvidenceAux, if_pos hc]
      exact ih seen
    · rw [dedupEvidenceAux, if_neg hc]
      refine List.Pairwise.cons ?_ (ih (evidenceKey item :: seen))
      intro b hb hkey
      have hnot := dedupEvidenceAux_key_not_seen rest (evidenceKey item :: seen) b hb
      apply hnot
      rw [List.elem_iff]
      exact List.mem_cons.mpr (Or.inl hkey.symm)

/-- **C7.** `summarizeEvidenceForMain` iterates the evidence in insertion
order, deduplicates by the `kind:summary` key, keeps the first 12 unique
entries and formats each as `[kind] summary`; consequently its output has
at most 12 lines and no two of its lines originate from items with the
same `(kind, summary)` pair (the contributing items have pairwise
distinct keys). -/
theorem summarizeEvidenceForMain_spec (evidence : List EvidenceItem) :
    Helpers.summarizeEvidenceForMain evidence
      = ((dedupEvidence evidence).take 12).map evidenceLine
    ∧ (Helpers.summarizeEvidenceForMain evidence).length ≤ 12
    ∧ ((dedupEvidence evidence).take 12).Pairwise
        (fun a b => evidenceKey a ≠ evidenceKey b) := by
  have heq : Helpers.summarizeEvidenceForMain evidence
      = ((dedupEvidence evidence).take 12).map evidenceLine := by
    unfold Helpers.summarizeEvidenceForMain dedupEvidence
    simpa using summarizeAux_eq_dedup evidence [] 0 (by omega)
  refine ⟨heq, ?_, ?_⟩
  · rw [heq, List.length_map]
    have := List.length_take 12 (dedupEvidence evidence)
    omega
  · exact List.Pairwise.sublist (List.take_sublist 12 _) (dedupEvidenceAux_pairwise evidence [])

/-! ## Claim C9 — worker-action parser round trip

`parseWorkerAction` (helpers.ts:13-59) is
`JSON.parse(extractJsonObject(raw))` followed by shape validation.
`extractJsonObject` is repository code and is embedded below at string
level; `JSON.parse`/`JSON.stringify` are platform primitives, so the
round trip through them is modelled at the level of the JSON value tree:
`workerActionToJson a` is the tree whose serialization `JSON.stringify`
would emit for the §3 JSON form of `a` (and which `JSON.parse` would
recover from it), and `parseWorkerActionJson` is the validation that
`parseWorkerAction` performs on the parsed tree.
`extractJsonObject_of_wrapped` discharges the remaining string-level
step: on any serialized top-level object — a string starting with `{` and
ending with `}` — `extractJsonObject` is the identity. -/

/-- The opening-brace character (by code point). -/
def openBraceChar : Char := Char.ofNat 123

/-- The closing-brace character (by code point). -/
def closeBraceChar : Char := Char.ofNat 125

/-- JavaScript `s.indexOf(c)` for a one-character pattern. -/
def jsIndexOfChar (s : String) (c : Char) : Int :=
  match s.data.findIdx? (fun x => x = c) with
  | some i => (i : Int)
  | none => -1

/-- JavaScript `s.lastIndexOf(c)` for a one-character pattern. -/
def jsLastIndexOfChar (s : String) (c : Char) : Int :=
  match s.data.reverse.findIdx? (fun x => x = c) with
  | some i => ((s.data.length : Int) - 1 - (i : Int))
  | none => -1

/-- JavaScript `s.slice(a, b)` for `0 ≤ a ≤ b`. -/
def jsSlice (s : String) (a b : Nat) : String :=
  String.mk ((s.data.drop a).take (b - a))

/-- helpers.ts:4-11 `extractJsonObject`: the substring from the first `{`
to the last `}` inclusive; an error when absent or ill-ordered. -/
def extractJsonObject (input : String) : Except String String :=
  let start := jsIndexOfChar input openBraceChar
  let stop := jsLastIndexOfChar input closeBraceChar
  if start < 0 ∨ stop < 0 ∨ stop ≤ start then
    Except.error "response did not include JSON object"
  else
    Except.ok (jsSlice input start.toNat (stop.toNat + 1))

/-- On a string that starts with `{` and ends with `}` — every
`JSON.stringify` output for a top-level object — `extractJsonObject`
returns the whole string. -/
theorem extractJsonObject_of_wrapped (s : String)
    (h1 : s.data.head? = some openBraceChar)
    (h2 : s.data.getLast? = some closeBraceChar) :
    extractJsonObject s = Except.ok s := by
  obtain ⟨c, rest, hcons⟩ : ∃ c rest, s.data = c :: rest := by
    cases hd : s.data with
    | nil => rw [hd] at h1; simp at h1
    | cons c rest => exact ⟨c, rest, rfl⟩
  have hc : c = openBraceChar := by
    rw [hcons] at h1; simpa using h1
  have hstart : jsIndexOfChar s openBraceChar = 0 := by
    unfold jsIndexOfChar
    rw [hcons, hc]
    simp [List.findIdx?_cons]
  have hlenpos : 0 < s.data.length := by rw [hcons]; simp
  have hlast : s.data.reverse.head? = some closeBraceChar := by
    rwa [List.head?_reverse]
  obtain ⟨d, rrest, hrcons⟩ : ∃ d rrest, s.data.reverse = d :: rrest := by
    cases hd : s.data.reverse with
    | nil => rw [hd] at hlast; simp at hlast
    | cons d rrest => exact ⟨d, rrest, rfl⟩
  have hd : d = closeBraceChar := by
    rw [hrcons] at hlast; simpa using hlast
  have hstop : jsLastIndexOfChar s closeBraceChar = (s.data.length : Int) - 1 := by
    unfold jsLastIndexOfChar
    rw [hrcons, hd]
    simp [List.findIdx?_cons]
  have hlen2 : 2 ≤ s.data.length := by
    rcases hlen1 : s.data.length with _ | n
    · omega
    · rcases n with _ | m
      · exfalso
        have : s.data = [c] := by
          rw [hcons]
          have : rest.length = 0 := by
            rw [hcons] at hlen1; simpa using hlen1
          simp [List.length_eq_zero.mp this]
        rw [this] at h2
        simp at h2
        rw [hc] at h2
        exact absurd h2.symm (by decide)
      · omega
  unfold extractJsonObject
  rw [hstart, hstop]
  have hcond : ¬((0 : Int) < 0 ∨ (s.data.length : Int) - 1 < 0 ∨ (s.data.length : Int) - 1 ≤ 0) := by
    push_neg
    refine ⟨le_refl _, by omega, by omega⟩
  simp only [Int.lt_iff_add_one_le] at hcond ⊢
  rw [if_neg (by push_neg at hcond ⊢; omega)]
  have htn : ((s.data.length : Int) - 1).toNat = s.data.length - 1 := by omega
  rw [htn]
  unfold jsSlice
  congr 1
  have : s.data.length - 1 + 1 = s.data.length := by omega
  rw [this]
  cases s with
  | mk data =>
    simp

/-- types.ts `WorkerAction`: the closed three-variant union (`call_tool`
always carries `tool = "shell"` and `args = {cmd}`). -/
inductive WorkerAction
  | call_tool (cmd : String) (reason : String)
  | ask (question : String)
  | finalize
  deriving DecidableEq

/-- A JSON value tree, as `JSON.parse` returns it. -/
inductive JValue
  | str (s : String)
  | num (n : Int)
  | bool (b : Bool)
  | null
  | arr (elems : List JValue)
  | obj (fields : List (String × JValue))

/-- JavaScript property access `v[name]` on a parsed JSON value (absent on
non-objects; the serializer below never emits duplicate keys). -/
def JValue.getField : JValue → String → Option JValue
  | .obj fields, name => (fields.find? (fun f => f.fst = name)).map Prod.snd
  | _, _ => none

/-- `v === s` for a string literal `s`, on an optional field value. -/
def isStrEq (v : Option JValue) (s : String) : Bool :=
  match v with
  | some (.str t) => t = s
  | _ => false

/-- `typeof v === "string" ? v.trim() : ""` on an optional field value. -/
def strFieldOrEmpty (v : Option JValue) : String :=
  match v with
  | some (.str t) => jsTrim t
  | _ => ""

/-- The JSON value tree of the §3 serialization of a worker action (what
`JSON.parse` returns on `JSON.stringify` of the action object). -/
def workerActionToJson : WorkerAction → JValue
  | .call_tool cmd reason =>
    .obj [("action", .str "call_tool"), ("tool", .str "shell"),
          ("args", .obj [("cmd", .str cmd)]), ("reason", .str reason)]
  | .ask question => .obj [("action", .str "ask"), ("question", .str question)]
  | .finalize => .obj [("action", .str "finalize")]

namespace Helpers

/-- helpers.ts:13-59 `parseWorkerAction`, applied to the JSON value that
`JSON.parse(extractJsonObject(raw))` produced: the strict-equality action
dispatch, the `tool === "shell"` check, the `typeof`-guarded trims of
`args?.cmd`, `reason` and `question`, and the non-emptiness checks, in
source order. -/
def parseWorkerActionJson (parsed : JValue) : Except String WorkerAction :=
  if isStrEq (parsed.getField "action") "call_tool" then
    if !(isStrEq (parsed.getField "tool") "shell") then
      Except.error "worker call_tool.tool must be 'shell'"
    else
      let cmd := strFieldOrEmpty ((parsed.getField "args").bind (fun a => a.getField "cmd"))
      let reason := strFieldOrEmpty (parsed.getField "reason")
      if jsIsEmpty cmd then Except.error "worker call_tool requires args.cmd"
      else if jsIsEmpty reason then Except.error "worker call_tool requires reason"
      else Except.ok (.call_tool cmd reason)
  else if isStrEq (parsed.getField "action") "ask" then
    let question := strFieldOrEmpty (parsed.getField "question")
    if jsIsEmpty question then Except.error "worker ask requires question"
    else Except.ok (.ask question)
  else if isStrEq (parsed.getField "action") "finalize" then
    Except.ok .finalize
  else
    Except.error "worker action must be one of: call_tool, ask, finalize"

end Helpers

/-- **C9, counterexample.** The round-trip claim quantifies over every
action conforming to §3, and §3 only requires `args.cmd` to be a
non-empty string; but the parser trims string fields, so the conforming
action `call_tool` with `cmd = " ls "` parses back to `cmd = "ls"`,
not to the original action. -/
theorem parseWorkerAction_roundtrip_counterexample :
    Helpers.parseWorkerActionJson (workerActionToJson (.call_tool " ls " "r"))
      = Except.ok (.call_tool "ls" "r")
    ∧ WorkerAction.call_tool "ls" "r" ≠ WorkerAction.call_tool " ls " "r" :=
  ⟨rfl, by decide⟩

/-- The §3 fields of an action are non-empty and carry no surrounding
whitespace (`jsTrim` fixes them). -/
def workerActionTrimmed : WorkerAction → Prop
  | .call_tool cmd reason => jsTrim cmd = cmd ∧ cmd ≠ "" ∧ jsTrim reason = reason ∧ reason ≠ ""
  | .ask question => jsTrim question = question ∧ question ≠ ""
  | .finalize => True

/-- A string is `jsIsEmpty` exactly when it is the empty string. -/
theorem jsIsEmpty_iff (s : String) : jsIsEmpty s = true ↔ s = "" := by
  unfold jsIsEmpty
  cases s with
  | mk data =>
    cases data with
    | nil => simp
    | cons c rest =>
      simp only [List.isEmpty_cons]
      constructor
      · intro h; exact absurd h (by simp)
      · intro h; exact absurd h (by simp [String.ext_iff])

/-- **C9, amended.** Parsing the JSON serialization of a worker action
returns the action with its string fields trimmed; so for every §3 action
whose fields are non-empty after trimming and carry no surrounding
whitespace, the round trip is the identity. -/
theorem parseWorkerAction_roundtrip (a : WorkerAction) (h : workerActionTrimmed a) :
    Helpers.parseWorkerActionJson (workerActionToJson a) = Except.ok a := by
  cases a with
  | call_tool cmd reason =>
    obtain ⟨hc, hcne, hr, hrne⟩ := h
    unfold Helpers.parseWorkerActionJson
    simp [workerActionToJson, JValue.getField, isStrEq, strFieldOrEmpty, hc, hr]
    rw [if_neg (by simp [jsIsEmpty_iff, hcne]), if_neg (by simp [jsIsEmpty_iff, hrne])]
  | ask question =>
    obtain ⟨hq, hqne⟩ := h
    unfold Helpers.parseWorkerActionJson
    simp [workerActionToJson, JValue.getField, isStrEq, strFieldOrEmpty, hq]
    rw [Bool.eq_false_iff]
    simp [jsIsEmpty_iff, hqne]
  | finalize => rfl

/-- Witness for `parseWorkerAction_roundtrip`: the action
`call_tool {cmd = "ls -1", reason = "enumerate roots"}` round-trips. -/
theorem parseWorkerAction_roundtrip_witness :
    workerActionTrimmed (.call_tool "ls -1" "enumerate roots")
    ∧ Helpers.parseWorkerActionJson (workerActionToJson (.call_tool "ls -1" "enumerate roots"))
        = Except.ok (.call_tool "ls -1" "enumerate roots") :=
  ⟨⟨rfl, by decide, rfl, by decide⟩,
   parseWorkerAction_roundtrip _ ⟨rfl, by decide, rfl, by decide⟩⟩

/-! ## Chat sessions (`src/types/chat.ts`, `loop-state.ts`)

A `ChatMessage` is a role and a content string; a session's message list
is modelled directly (the `id`/timestamps of `ChatSession` play no part in
the core).  `appendSessionEntries` pushes entries and persists through the
external store; in the effect traces below it appears as an
`Eff.appendPersist` (and the compaction's whole-list replacement as an
`Eff.replacePersist`). -/

/-- `ChatMessage.role`. -/
inductive Role
  | system
  | user
  | assistant
  deriving DecidableEq

/-- The literal string of a role. -/
def Role.toStr : Role → String
  | .system => "system"
  | .user => "user"
  | .assistant => "assistant"

/-- `ChatMessage`. -/
structure Msg where
  role : Role
  content : String
  deriving DecidableEq

/-- JavaScript `Array.prototype.join(sep)`. -/
def jsJoin (sep : String) : List String → String
  | [] => ""
  | [x] => x
  | x :: y :: rest => x ++ sep ++ jsJoin sep (y :: rest)

/-- `1. x`, `2. y`, … numbering used by the summary builders
(`map((v, i) => i+1 + ". " + v)`). -/
def numberLinesFrom (n : Nat) : List String → List String
  | [] => []
  | x :: rest => (toString n ++ ". " ++ x) :: numberLinesFrom (n + 1) rest

/-- The `map((v, idx) => idx+1 + ". " + v)` pattern. -/
def numberLines (lines : List String) : List String :=
  numberLinesFrom 1 lines

/-- loop-state.ts:553-559 `clipText`. -/
def clipText (value : String) (limit : Nat) : String :=
  let compact := jsTrim value
  if jsLength compact ≤ limit then compact
  else String.mk (compact.data.take limit) ++ " ...[truncated]"

/-- helpers.ts:262-268 `estimateTokenCount`: `ceil(len(trim(text))/4)`. -/
def estimateTokenCount (text : String) : Nat :=
  let compact := jsTrim text
  if jsIsEmpty compact then 0 else (jsLength compact + 3) / 4

/-! ## Context guard (`src/runtime/agent-loop/context-guard.ts`) -/

/-- context-guard.ts:25-32 constants. -/
def COMPACTION_MIN_MESSAGES : Nat := 24

/-- context-guard.ts:29. -/
def COMPACTION_MAX_RECENT_MESSAGES : Nat := 24

/-- context-guard.ts:30. -/
def COMPACTION_MIN_RECENT_MESSAGES : Nat := 6

/-- context-guard.ts:31. -/
def COMPACTION_CLIP_CHARS : Nat := 700

/-- context-guard.ts:32. -/
def COMPACTION_MARKER : String := "[SESSION_COMPACTION]"

/-- context-guard.ts:55-57 `estimateSessionTokens`. -/
def estimateSessionTokens (messages : List Msg) : Nat :=
  messages.foldl (fun sum message => sum + estimateTokenCount message.content + 6) 0

/-- context-guard.ts:59-65 `stripLoopTagPrefix` (named without the suffix
here): everything after the first `]`, trimmed. -/
def stripLoopTag (content : String) : String :=
  match content.data.findIdx? (fun c => c = ']') with
  | none => jsTrim content
  | some idx => jsTrim (String.mk (content.data.drop (idx + 1)))

/-- context-guard.ts:67-69 `isLoopTaggedSystemMessage`: a system message
whose content matches `/^\[(WORKER_|MAIN_|SESSION_COMPACTION)/`. -/
def isLoopTaggedSystemMessage (message : Msg) : Bool :=
  message.role = Role.system
    && (jsStartsWith message.content "[WORKER_"
      || jsStartsWith message.content "[MAIN_"
      || jsStartsWith message.content "[SESSION_COMPACTION")

/-- JavaScript `Array.prototype.slice(-n)`: the last `n` elements. -/
def lastN (n : Nat) (l : List α) : List α :=
  l.drop (l.length - n)

/-- context-guard.ts:71-76 `extractLatestByPrefix` (named without the
suffix here): the stripped contents of the messages starting with the
tag, last `limit` of them. -/
def extractLatestByTag (messages : List Msg) (tag : String) (limit : Nat) : List String :=
  lastN limit ((messages.filter (fun m => jsStartsWith m.content tag)).map
    (fun m => stripLoopTag m.content))

/-- types.ts / loop-state.ts `PlanningResult.next`. -/
inductive PlanNext
  | collect_evidence
  | main_decision
  | final_report
  deriving DecidableEq

/-- The literal string of a planning transition. -/
def PlanNext.toStr : PlanNext → String
  | .collect_evidence => "collect_evidence"
  | .main_decision => "main_decision"
  | .final_report => "final_report"

/-- types.ts `PlanningResult`. -/
structure PlanningResult where
  next : PlanNext
  reason : String
  evidence_goals : Option (List String) := none
  guidance : Option String := none
  answer_hint : Option String := none
  deriving DecidableEq

/-- types.ts `MainDecision.decision` (`continue` is a Lean keyword, hence
the `K` suffix). -/
inductive DecisionKind
  | finalize
  | continueK
  deriving DecidableEq

/-- types.ts `MainDecision`. -/
structure MainDecision where
  decision : DecisionKind
  answer : Option String := none
  guidance : Option String := none
  summary_evidence : Option (List String) := none
  needed_evidence : Option (List String) := none
  forced_synthesis_enable_think : Option Bool := none
  deriving DecidableEq

/-- loop-state.ts:476-483 `LoopState`. -/
inductive LoopState
  | PlanIntent
  | ContextGuard
  | AcquireEvidence
  | AssessSufficiency
  | ForcedSynthesis
  | Done
  deriving DecidableEq

/-- loop-state.ts:488-502 `LoopRuntime`, with `run-loop.ts:47-56` initial
values as defaults. -/
structure LoopRuntime where
  planning : Option PlanningResult := none
  forcedSynthesisEnableThink : Option Bool := none
  forcedSynthesisReason : Option String := none
  workerValidationFailureStreak : Nat := 0
  evidence : List EvidenceItem := []
  guidance : String := ""
  recentUserAnswer : String := ""
  lastTool : Option ToolResult := none
  finalAnswer : String := ""
  steps : Nat := 0
  step : Nat := 1
  resumeStateAfterCompaction : LoopState := .PlanIntent
  lastCompactionSignature : Option String := none
  deriving DecidableEq

/-- context-guard.ts:78-108 `buildCompactionSummaryDocument`.  The
`new Date().toISOString()` timestamp is the `now` parameter. -/
def buildCompactionSummaryDocument (goal : String) (now : String) (runtime : LoopRuntime)
    (messages : List Msg) : String :=
  let goals := extractLatestByTag messages "[AGENT_GOAL:" 3
  let commands := (extractLatestByTag messages "[WORKER_TOOL_" 8).filter
    (fun line => !(jsStartsWith line "exit="))
  let results := extractLatestByTag messages "[WORKER_TOOL_RESULT_" 8
  let asks := extractLatestByTag messages "[WORKER_ASK_" 5
  let answers := extractLatestByTag messages "[WORKER_ASK_ANSWER_" 5
  let guidances := extractLatestByTag messages "[MAIN_GUIDANCE_" 6
  let failures := lastN 5 ((messages.filter
      (fun m => m.role = Role.system && strContains m.content "_FAIL")).map
    (fun m => stripLoopTag m.content))
  let latestAssistant := (messages.reverse.find?
      (fun m => m.role = Role.assistant && !(jsIsEmpty (jsTrim m.content)))).map Msg.content
  jsJoin "\n"
    [COMPACTION_MARKER ++ " 자동 생성 요약",
     "- 생성 시각: " ++ now,
     "- 현재 목표: " ++ goal,
     "- 누적 루프 step: " ++ toString runtime.step,
     "- 누적 evidence 개수: " ++ toString runtime.evidence.length,
     "- 최근 목표 기록: "
       ++ (if goals.length > 0 then jsJoin " | " (goals.map (clipText · 180)) else "없음"),
     "- 최근 실행 명령: "
       ++ (if commands.length > 0 then jsJoin " | " (commands.map (clipText · 180)) else "없음"),
     "- 최근 명령 결과: "
       ++ (if results.length > 0 then jsJoin " | " (results.map (clipText · 120)) else "없음"),
     "- 사용자 확인 질문: "
       ++ (if asks.length > 0 then jsJoin " | " (asks.map (clipText · 180)) else "없음"),
     "- 사용자 답변: "
       ++ (if answers.length > 0 then jsJoin " | " (answers.map (clipText · 120)) else "없음"),
     "- main guidance: "
       ++ (if guidances.length > 0 then jsJoin " | " (guidances.map (clipText · 180)) else "없음"),
     "- 실패 로그 요약: "
       ++ (if failures.length > 0 then jsJoin " | " (failures.map (clipText · 180)) else "없음"),
     "- 최근 assistant 응답: "
       ++ (match latestAssistant with
           | some content => clipText content 260
           | none => "없음")]

/-- The `role:content` deduplication key of `dedupeMessages`
(context-guard.ts:114). -/
def messageKey (message : Msg) : String :=
  message.role.toStr ++ ":" ++ message.content

/-- The loop of `dedupeMessages` (context-guard.ts:110-122) with the
`seen` set explicit. -/
def dedupeMessagesAux : List Msg → List String → List Msg
  | [], _ => []
  | message :: rest, seen =>
    if seen.contains (messageKey message) then dedupeMessagesAux rest seen
    else message :: dedupeMessagesAux rest (messageKey message :: seen)

/-- context-guard.ts:110-122 `dedupeMessages`. -/
def dedupeMessages (messages : List Msg) : List Msg :=
  dedupeMessagesAux messages []

/-- context-guard.ts:34-40 `CompactionPlan`. -/
structure CompactionPlan where
  shouldCompact : Bool
  estimatedTokens : Nat
  triggerTokens : Nat
  targetTokens : Nat
  signature : String
  deriving DecidableEq

/-- context-guard.ts:124-138 `computeCompactionPlan`.
`Math.floor(limit * 0.85)` and `Math.floor(limit * 0.55)` are computed
here as `limit * 85 / 100` and `limit * 55 / 100` in `Nat`; for limits in
the relevant range the binary-float product floors to the same value, and
no theorem below depends on the exact ratio. -/
def computeCompactionPlan (messages : List Msg) (contextLimitTokens : Nat) : CompactionPlan :=
  let estimatedTokens := estimateSessionTokens messages
  let triggerTokens := contextLimitTokens * 85 / 100
  let targetTokens := contextLimitTokens * 55 / 100
  let tail := messages.getLast?
  let signature := toString estimatedTokens ++ ":" ++ toString messages.length ++ ":"
    ++ (match tail with | some m => m.role.toStr | none => "none") ++ ":"
    ++ toString (match tail with | some m => jsLength m.content | none => 0)
  { shouldCompact := messages.length ≥ COMPACTION_MIN_MESSAGES
      && estimatedTokens ≥ triggerTokens,
    estimatedTokens := estimatedTokens,
    triggerTokens := triggerTokens,
    targetTokens := targetTokens,
    signature := signature }

/-- The `base` list of `buildCompactedSessionMessages`
(context-guard.ts:148-161): at most one non-loop-tagged base system
message, then the new summary as a system message. -/
def compactionBase (messages : List Msg) (summaryDoc : String) : List Msg :=
  let nonCompaction := messages.filter
    (fun m => !(m.role = Role.system && jsStartsWith m.content COMPACTION_MARKER))
  match nonCompaction.find?
      (fun m => m.role = Role.system && !(isLoopTaggedSystemMessage m)) with
  | some b => [b, { role := Role.system, content := summaryDoc }]
  | none => [{ role := Role.system, content := summaryDoc }]

/-- The two head-dropping `while` loops of `buildCompactedSessionMessages`
(context-guard.ts:166-169 with `minLen = COMPACTION_MIN_RECENT_MESSAGES`,
and 176-179 with `minLen = 1`): drop the head of `recent` while the
deduplicated rebuild stays over `target` and more than `minLen` recent
messages remain. -/
def shrinkRecent (base : List Msg) (target minLen : Nat) : List Msg → List Msg
  | [] => []
  | m :: rest =>
    if estimateSessionTokens (dedupeMessages (base ++ (m :: rest))) > target
        ∧ (m :: rest).length > minLen then
      shrinkRecent base target minLen rest
    else m :: rest

/-- context-guard.ts:140-182 `buildCompactedSessionMessages`. -/
def buildCompactedSessionMessages (messages : List Msg) (summaryDoc : String)
    (targetTokens : Nat) : List Msg :=
  let nonCompaction := messages.filter
    (fun m => !(m.role = Role.system && jsStartsWith m.content COMPACTION_MARKER))
  let base := compactionBase messages summaryDoc
  let recent0 := (lastN COMPACTION_MAX_RECENT_MESSAGES nonCompaction).map
    (fun m => { role := m.role, content := jsTrim m.content : Msg })
  let recent1 := shrinkRecent base targetTokens COMPACTION_MIN_RECENT_MESSAGES recent0
  let recent2 :=
    if estimateSessionTokens (dedupeMessages (base ++ recent1)) > targetTokens then
      recent1.map (fun m => { m with content := clipText m.content COMPACTION_CLIP_CHARS })
    else recent1
  let recent3 := shrinkRecent base targetTokens 1 recent2
  dedupeMessages (base ++ recent3)

/-! ## Events, effects and stage handlers (`stages.ts`, `run-loop.ts`)

The handlers are `async` functions whose externally visible behaviour is
a sequence of side effects — event publications through `onEvent` and
session writes through `appendSessionEntries` / `saveSession` — plus the
mutation of the `runtime` bag and the returned next `LoopState`.  Each
handler is embedded as a pure function from the runtime, the session and
the outcome of its external calls (LLM replies, sandbox results, user
answers — the oracle) to a `StageResult` carrying the updated runtime and
session, the ordered effect trace, and the next state.  Streaming
`worker-token`/`main-token` callbacks happen inside the external LLM
calls and are not part of the traces. -/

/-- types.ts `AgentLoopEvent` (token events excluded, see above;
`main-start`/`main-decision` carry the `phase` string of the newer event
shape used by `stages.ts`). -/
inductive AgentLoopEvent
  | startEv (agentId : String) (mode : String) (goal : String)
  | loopStateEv (state : LoopState) (step : Nat) (evidenceCount : Nat) (summary : String)
  | planningStartEv (goal : String)
  | planningResultEv (next : PlanNext) (reason : String) (evidenceGoals : List String)
      (guidance : Option String)
  | compactionStartEv (estimatedTokens triggerTokens targetTokens contextLimitTokens
      messageCount : Nat)
  | compactionCompleteEv (beforeTokens afterTokens beforeMessages afterMessages : Nat)
  | workerStartEv (step : Nat)
  | workerActionEv (step : Nat) (action : String) (detail : String)
  | toolStartEv (step : Nat) (cmd : String)
  | toolResultEv (step : Nat) (exitCode : Int) (stdout stderr : String) (runner : String)
      (workspaceGroupId : String)
  | askEv (step : Nat) (question : String)
  | askAnswerEv (step : Nat) (answer : String)
  | mainStartEv (phase : String) (evidenceCount : Nat)
  | mainDecisionEv (phase : String) (decision : DecisionKind) (guidance : Option String)
  | finalAnswerEv (answer : String)
  | completeEv (steps : Nat) (evidenceCount : Nat)
  deriving DecidableEq

/-- One observable side effect of a handler, in program order:
an `onEvent` publication, an `appendSessionEntries` (push + persist), or
the compaction's whole-list replacement + persist. -/
inductive Eff
  | publish (e : AgentLoopEvent)
  | appendPersist (entries : List Msg)
  | replacePersist (messages : List Msg)
  deriving DecidableEq

/-- A handler's result: the updated runtime and session, the ordered
effect trace, and the returned next state. -/
structure StageResult where
  runtime : LoopRuntime
  session : List Msg
  effects : List Eff
  next : LoopState
  deriving DecidableEq

/-- The per-run constants of `LoopDependencies` (loop-state.ts:507-516)
that the embedded handlers consume. -/
structure LoopDeps where
  goal : String
  agentId : String := "agent"
  maxSteps : Nat
  contextLimitTokens : Nat
  deriving DecidableEq

/-- helpers.ts:177-181 — first line with non-blank content, or `""`. -/
def firstNonEmptyLine (s : String) : String :=
  (((splitOnCharAux '\n' s.data []).map String.mk).find?
    (fun line => !(jsIsEmpty (jsTrim line)))).getD ""

namespace Helpers

/-- helpers.ts:177-181 `summarizeToolResult`. -/
def summarizeToolResult (result : ToolResult) : String :=
  let stdoutLine := firstNonEmptyLine result.stdout
  let stderrLine := firstNonEmptyLine result.stderr
  "runner=" ++ result.runner ++ " group=" ++ result.workspaceGroupId
    ++ " cmd=" ++ result.cmd ++ " exit=" ++ toString result.exitCode
    ++ " stdout=" ++ (if jsIsEmpty stdoutLine then "<empty>" else stdoutLine)
    ++ " stderr=" ++ (if jsIsEmpty stderrLine then "<empty>" else stderrLine)

/-- helpers.ts:231-238 `fallbackFinalAnswer`. -/
def fallbackFinalAnswer (goal : String) (evidenceSummary : List String) : String :=
  jsJoin "\n"
    (["Goal: " ++ goal,
      "Final status: evidence gathered but final narrative formatting was unstable.",
      "Key evidence:"]
     ++ (if evidenceSummary.length > 0 then numberLines evidenceSummary else ["1. none"]))

end Helpers

/-- loop-state.ts:561-574 `summarizePlanningForDecision`. -/
def summarizePlanningForDecision : Option PlanningResult → List String
  | none => []
  | some plan =>
    ["[planning] next=" ++ plan.next.toStr ++ " reason=" ++ plan.reason]
    ++ (match plan.guidance with
        | some g => if jsIsEmpty (jsTrim g) then [] else ["[planning] guidance=" ++ jsTrim g]
        | none => [])
    ++ (match plan.evidence_goals with
        | some goals =>
          if goals.length > 0 then
            ["[planning] evidence_goals=" ++ jsJoin " | " (numberLines goals)]
          else []
        | none => [])

/-- loop-state.ts:576-580 `summarizeDecisionEvidence`. -/
def summarizeDecisionEvidence (runtime : LoopRuntime) : List String :=
  summarizePlanningForDecision runtime.planning
    ++ Helpers.summarizeEvidenceForMain runtime.evidence

/-- Outcome of `askWorkerForAction` plus, per action, the external data
the branch consumes: the sandbox `ToolResult` for `call_tool` and the
`askUser` answer for `ask` (the run with an absent `askUser` callback
throws a fatal ConfigError and aborts; it is outside these traces). -/
inductive WorkerTurnOutcome
  | failure (reason : String)
  | callTool (cmd : String) (reason : String) (result : ToolResult)
  | ask (question : String) (answer : String)
  | finalize
  deriving DecidableEq

/-- Outcome of `askMainForPlanning`. -/
inductive PlanningOutcome
  | failure (reason : String)
  | planned (plan : PlanningResult)
  deriving DecidableEq

/-- Outcome of `askMainForDecision` in `AssessSufficiency`. -/
inductive MainDecisionOutcome
  | failure (reason : String)
  | decided (decision : MainDecision)
  deriving DecidableEq

/-- Decidable equality for `Except` results (used by the oracle record). -/
instance {ε α : Type} [DecidableEq ε] [DecidableEq α] : DecidableEq (Except ε α) := fun x y =>
  match x, y with
  | .ok a, .ok b => if h : a = b then isTrue (by rw [h]) else isFalse (by simp [h])
  | .error a, .error b => if h : a = b then isTrue (by rw [h]) else isFalse (by simp [h])
  | .ok _, .error _ => isFalse (by simp)
  | .error _, .ok _ => isFalse (by simp)

/-- The bundle of external-call outcomes one loop iteration can consume:
whichever stage runs reads its fields (`askMainForFinalAnswer` results as
`Except`: `ok` is a returned text — possibly its internal fallback —,
`error` a thrown provider error; `forced` covers the decision+report pair
of `ForcedSynthesis`; `now` is the compaction timestamp). -/
structure OracleStep where
  planning : PlanningOutcome := .failure "provider error"
  planningFinalAnswer : Except String String := .error "provider error"
  worker : WorkerTurnOutcome := .finalize
  main : MainDecisionOutcome := .failure "provider error"
  mainFinalAnswer : Except String String := .error "provider error"
  forced : Except String (MainDecision × String) := .error "provider error"
  now : String := ""
  deriving DecidableEq

/-- stages.ts:75-158 `handlePlanningTurn`. -/
def handlePlanningTurn (deps : LoopDeps) (rt : LoopRuntime) (session : List Msg)
    (o : OracleStep) : StageResult :=
  let e0 := Eff.publish (.loopStateEv .PlanIntent rt.step rt.evidence.length
    ("planning user intent and selecting next transition from goal=\""
      ++ clipText deps.goal 120 ++ "\""))
  let e1 := Eff.publish (.planningStartEv deps.goal)
  let e2 := Eff.publish (.mainStartEv "planning" rt.evidence.length)
  let (planning, session1, failEffs) :=
    match o.planning with
    | .planned p => (p, session, ([] : List Eff))
    | .failure reason =>
      let p : PlanningResult :=
        { next := .collect_evidence, reason := "planning failed: " ++ reason
          guidance := some "Collect concrete evidence with safe read-only commands before finalize." }
      let entry : Msg := { role := Role.system, content := "[PLANNING_FAIL] " ++ reason }
      (p, session ++ [entry], [Eff.appendPersist [entry]])
  let rt1 := { rt with planning := some planning }
  let rt2 :=
    match planning.guidance with
    | some g => if jsIsEmpty (jsTrim g) then rt1 else { rt1 with guidance := jsTrim g }
    | none => rt1
  let rt3 :=
    match planning.evidence_goals with
    | some goals =>
      if goals.length > 0 then
        let s := "planning goals: " ++ jsJoin " | " (numberLines goals)
        { rt2 with evidence := rt2.evidence ++ [{ kind := .main_guidance, summary := s }] }
      else rt2
    | none => rt2
  let e3 := Eff.publish (.planningResultEv planning.next planning.reason
    (planning.evidence_goals.getD []) planning.guidance)
  let c2 := "[PLANNING_RESULT] next=" ++ planning.next.toStr
    ++ " reason=" ++ clipText planning.reason 220
  let entry2 : Msg := { role := Role.system, content := c2 }
  let session2 := session1 ++ [entry2]
  let effs := [e0, e1, e2] ++ failEffs ++ [e3, Eff.appendPersist [entry2]]
  match planning.next with
  | .collect_evidence =>
    { runtime := rt3, session := session2, effects := effs, next := .AcquireEvidence }
  | .main_decision =>
    { runtime := rt3, session := session2, effects := effs, next := .AssessSufficiency }
  | .final_report =>
    let e4 := Eff.publish (.mainStartEv "final-report" rt3.evidence.length)
    match o.planningFinalAnswer with
    | .ok answer =>
      { runtime := { rt3 with finalAnswer := answer }, session := session2
        effects := effs ++ [e4, Eff.publish (.finalAnswerEv answer)], next := .Done }
    | .error reason =>
      let fb := Helpers.fallbackFinalAnswer deps.goal (summarizeDecisionEvidence rt3)
      let entry3 : Msg := { role := Role.system, content := "[PLANNING_FINAL_REPORT_FAIL] " ++ reason }
      { runtime := { rt3 with finalAnswer := fb }, session := session2 ++ [entry3]
        effects := effs ++ [e4, Eff.appendPersist [entry3], Eff.publish (.finalAnswerEv fb)]
        next := .Done }

/-- stages.ts:163-275 `handleWorkerTurn`.  The prompt construction
(`buildWorkerMessages`) is input to the external worker model and does
not affect the observable trace. -/
def handleWorkerTurn (deps : LoopDeps) (rt : LoopRuntime) (session : List Msg)
    (o : OracleStep) : StageResult :=
  let e0 := Eff.publish (.loopStateEv .AcquireEvidence rt.step rt.evidence.length
    ("worker evidence loop step=" ++ toString rt.step
      ++ " (max=" ++ toString deps.maxSteps ++ ")"))
  if rt.step > deps.maxSteps then
    { runtime := { rt with forcedSynthesisReason := some ("max step reached: step="
        ++ toString rt.step ++ ", maxSteps=" ++ toString deps.maxSteps) }
      session := session, effects := [e0], next := .ForcedSynthesis }
  else
    let rt0 := { rt with steps := rt.step }
    let e1 := Eff.publish (.workerStartEv rt.step)
    match o.worker with
    | .failure reason =>
      let fallbackGuidance := "Worker validation failed at step " ++ toString rt0.step
        ++ ". Proceed to main finalization using collected evidence. " ++ reason
      let centry := "[WORKER_VALIDATION_FAIL_" ++ toString rt0.step ++ "] " ++ reason
      let entry : Msg := { role := Role.system, content := centry }
      { runtime := { rt0 with
          evidence := rt0.evidence ++ [{ kind := .main_guidance, summary := fallbackGuidance }]
          forcedSynthesisReason := some ("worker validation failed at step "
            ++ toString rt0.step ++ ": " ++ reason) }
        session := session ++ [entry]
        effects := [e0, e1,
          Eff.publish (.workerActionEv rt0.step "finalize" fallbackGuidance),
          Eff.appendPersist [entry]]
        next := .ForcedSynthesis }
    | .callTool cmd reason result =>
      let e2 := Eff.publish (.workerActionEv rt0.step "call_tool" reason)
      let e3 := Eff.publish (.toolStartEv rt0.step cmd)
      let detail := jsJoin "\n"
        ["cmd: " ++ result.cmd, "exit: " ++ toString result.exitCode, "stdout:",
         (if jsIsEmpty result.stdout then "<empty>" else result.stdout), "stderr:",
         (if jsIsEmpty result.stderr then "<empty>" else result.stderr)]
      let evidenceItem : EvidenceItem := { kind := .tool_result, summary := Helpers.summarizeToolResult result, detail := some detail }
      let e4 := Eff.publish (.toolResultEv rt0.step result.exitCode result.stdout
        result.stderr result.runner result.workspaceGroupId)
      let c1 := "[WORKER_TOOL_" ++ toString rt0.step ++ "] " ++ result.cmd
      let c2 := "[WORKER_TOOL_RESULT_" ++ toString rt0.step ++ "] exit=" ++ toString result.exitCode
      let m1 : Msg := { role := Role.system, content := c1 }
      let m2 : Msg := { role := Role.system, content := c2 }
      let rt1 := { rt0 with
        lastTool := some result
        evidence := rt0.evidence ++ [evidenceItem]
        step := rt0.step + 1 }
      { runtime := rt1
        session := session ++ [m1, m2]
        effects := [e0, e1, e2, e3, e4, Eff.appendPersist [m1, m2]]
        next := .AcquireEvidence }
    | .ask question answer0 =>
      let e2 := Eff.publish (.workerActionEv rt0.step "ask" question)
      let e3 := Eff.publish (.askEv rt0.step question)
      let answer := jsTrim answer0
      let e4 := Eff.publish (.askAnswerEv rt0.step answer)
      let c1 := "[WORKER_ASK_" ++ toString rt0.step ++ "] " ++ question
      let c2 := "[WORKER_ASK_ANSWER_" ++ toString rt0.step ++ "] " ++ answer
      let m1 : Msg := { role := Role.user, content := c1 }
      let m2 : Msg := { role := Role.user, content := c2 }
      let rt1 := { rt0 with
        recentUserAnswer := answer
        evidence := rt0.evidence
          ++ [{ kind := .user_answer, summary := "Q: " ++ question ++ " / A: " ++ answer }]
        step := rt0.step + 1 }
      { runtime := rt1
        session := session ++ [m1, m2]
        effects := [e0, e1, e2, e3, e4, Eff.appendPersist [m1, m2]]
        next := .AcquireEvidence }
    | .finalize =>
      { runtime := rt0, session := session
        effects := [e0, e1,
          Eff.publish (.workerActionEv rt0.step "finalize" "worker requested finalize")]
        next := .AssessSufficiency }

/-- stages.ts:280-337 `handleMainDecisionTurn` (with
`buildFinalAnswerFromDecision`, stages.ts:39-70, inlined in the
`finalize` branch as in the source call). -/
def handleMainDecisionTurn (deps : LoopDeps) (rt : LoopRuntime) (session : List Msg)
    (o : OracleStep) : StageResult :=
  let e0 := Eff.publish (.loopStateEv .AssessSufficiency rt.step rt.evidence.length
    ("assessing evidence sufficiency (evidence=" ++ toString rt.evidence.length
      ++ ") to finalize or continue"))
  let e1 := Eff.publish (.mainStartEv "assess-sufficiency" rt.evidence.length)
  let evidenceSummary := summarizeDecisionEvidence rt
  match o.main with
  | .failure reason =>
    let g := "Main decision failed at step " ++ toString rt.step
      ++ ". Continue evidence loop with safer minimal actions. " ++ reason
    let centry := "[MAIN_DECISION_FAIL_" ++ toString rt.step ++ "] " ++ reason
    let entry : Msg := { role := Role.system, content := centry }
    let rt1 := { rt with
      guidance := g
      evidence := rt.evidence ++ [{ kind := .main_guidance, summary := g }]
      step := rt.step + 1 }
    { runtime := rt1
      session := session ++ [entry]
      effects := [e0, e1, Eff.appendPersist [entry],
        Eff.publish (.mainDecisionEv "assess-sufficiency" .continueK (some g))]
      next := .AcquireEvidence }
  | .decided decision =>
    let e2 := Eff.publish (.mainDecisionEv "assess-sufficiency" decision.decision
      decision.guidance)
    let rt1 :=
      match decision.forced_synthesis_enable_think with
      | some b => { rt with forcedSynthesisEnableThink := some b }
      | none => rt
    match decision.decision with
    | .continueK =>
      let g :=
        match decision.guidance with
        | some g0 =>
          if jsIsEmpty (jsTrim g0) then "Gather more concrete evidence and retry finalize."
          else jsTrim g0
        | none => "Gather more concrete evidence and retry finalize."
      let entry : Msg := { role := Role.system, content := "[MAIN_GUIDANCE_" ++ toString rt1.step ++ "] " ++ g }
      let rt2 := { rt1 with
        guidance := g
        evidence := rt1.evidence ++ [{ kind := .main_guidance, summary := g }]
        step := rt1.step + 1 }
      { runtime := rt2
        session := session ++ [entry]
        effects := [e0, e1, e2, Eff.appendPersist [entry]]
        next := .AcquireEvidence }
    | .finalize =>
      let e3 := Eff.publish (.mainStartEv "final-report" rt1.evidence.length)
      match o.mainFinalAnswer with
      | .ok answer =>
        { runtime := { rt1 with finalAnswer := answer }, session := session
          effects := [e0, e1, e2, e3, Eff.publish (.finalAnswerEv answer)], next := .Done }
      | .error reason =>
        let fb := Helpers.fallbackFinalAnswer deps.goal evidenceSummary
        let centry := "[MAIN_FINAL_ANSWER_FAIL_" ++ toString rt1.step ++ "] " ++ reason
        let entry : Msg := { role := Role.system, content := centry }
        { runtime := { rt1 with finalAnswer := fb }, session := session ++ [entry]
          effects := [e0, e1, e2, e3, Eff.appendPersist [entry],
            Eff.publish (.finalAnswerEv fb)]
          next := .Done }

/-- stages.ts:342-391 `handleForceFinalizeTurn`. -/
def handleForceFinalizeTurn (deps : LoopDeps) (rt : LoopRuntime) (session : List Msg)
    (o : OracleStep) : StageResult :=
  let e0 := Eff.publish (.loopStateEv .ForcedSynthesis rt.step rt.evidence.length
    (match rt.forcedSynthesisReason with
     | some r =>
       if jsIsEmpty (jsTrim r) then
         "forced synthesis path triggered; skip more evidence and produce final answer"
       else jsTrim r
     | none => "forced synthesis path triggered; skip more evidence and produce final answer"))
  let e1 := Eff.publish (.mainStartEv "forced-synthesis" rt.evidence.length)
  let evidenceSummary := summarizeDecisionEvidence rt
  match o.forced with
  | .ok (_decision, answer) =>
    { runtime := { rt with finalAnswer := answer }, session := session
      effects := [e0, e1, Eff.publish (.mainDecisionEv "forced-synthesis" .finalize none),
        Eff.publish (.finalAnswerEv answer)]
      next := .Done }
  | .error reason =>
    let fb := Helpers.fallbackFinalAnswer deps.goal evidenceSummary
    let entry : Msg := { role := Role.system, content := "[MAIN_FORCE_FINALIZE_FAIL] " ++ reason }
    { runtime := { rt with finalAnswer := fb }, session := session ++ [entry]
      effects := [e0, e1, Eff.appendPersist [entry],
        Eff.publish (.mainDecisionEv "forced-synthesis" .finalize
          (some ("fallback finalize: " ++ reason))),
        Eff.publish (.finalAnswerEv fb)]
      next := .Done }

/-- context-guard.ts:208-250 `handleContextCompaction`. -/
def handleContextCompaction (deps : LoopDeps) (rt : LoopRuntime) (session : List Msg)
    (o : OracleStep) : StageResult :=
  let e0 := Eff.publish (.loopStateEv .ContextGuard rt.step rt.evidence.length
    ("context tokens are near limit (" ++ toString deps.contextLimitTokens
      ++ "); compacting session history"))
  let plan := computeCompactionPlan session deps.contextLimitTokens
  if !plan.shouldCompact then
    { runtime := { rt with lastCompactionSignature := none }, session := session
      effects := [e0], next := rt.resumeStateAfterCompaction }
  else
    let e1 := Eff.publish (.compactionStartEv plan.estimatedTokens plan.triggerTokens
      plan.targetTokens deps.contextLimitTokens session.length)
    let summaryDoc := buildCompactionSummaryDocument deps.goal o.now rt session
    let compacted := buildCompactedSessionMessages session summaryDoc plan.targetTokens
    let afterTokens := estimateSessionTokens compacted
    let newSig := (computeCompactionPlan compacted deps.contextLimitTokens).signature
    { runtime := { rt with lastCompactionSignature := some newSig }
      session := compacted
      effects := [e0, e1, Eff.replacePersist compacted,
        Eff.publish (.compactionCompleteEv plan.estimatedTokens afterTokens
          session.length compacted.length)]
      next := rt.resumeStateAfterCompaction }

/-- The compaction pre-emption test at the top of the main loop
(run-loop.ts:73-78). -/
def guardCond (deps : LoopDeps) (state : LoopState) (rt : LoopRuntime)
    (session : List Msg) : Bool :=
  let plan := computeCompactionPlan session deps.contextLimitTokens
  state ≠ LoopState.ContextGuard && plan.shouldCompact
    && rt.lastCompactionSignature ≠ some plan.signature

/-- The state of the `while` loop of `runAgentLoop` (run-loop.ts:72-103):
the `state` variable, the `runtime` bag and the session. -/
structure LoopSt where
  state : LoopState
  runtime : LoopRuntime
  session : List Msg
  deriving DecidableEq

/-- One iteration of the `while` loop of run-loop.ts:72-103: at `Done` the
loop has exited (modelled as a stutter); otherwise either the pre-emption
into `ContextGuard` fires, or the current state's handler runs. -/
def loopIter (deps : LoopDeps) (o : OracleStep) (st : LoopSt) : LoopSt :=
  if st.state = LoopState.Done then st
  else if guardCond deps st.state st.runtime st.session then
    { st with
      state := LoopState.ContextGuard
      runtime := { st.runtime with resumeStateAfterCompaction := st.state } }
  else
    let r :=
      match st.state with
      | .ContextGuard => handleContextCompaction deps st.runtime st.session o
      | .PlanIntent => handlePlanningTurn deps st.runtime st.session o
      | .AcquireEvidence => handleWorkerTurn deps st.runtime st.session o
      | .AssessSufficiency => handleMainDecisionTurn deps st.runtime st.session o
      | .ForcedSynthesis => handleForceFinalizeTurn deps st.runtime st.session o
      | .Done => { runtime := st.runtime, session := st.session, effects := [], next := .Done }
    { state := r.next, runtime := r.runtime, session := r.session }

/-- run-loop.ts:47-57, 70: the initial loop state — `step = 1`, resume
state `PlanIntent`, state `PlanIntent`, and the `[AGENT_GOAL:…]` user
entry appended to the caller's session. -/
def initLoopSt (deps : LoopDeps) (session0 : List Msg) : LoopSt :=
  { state := LoopState.PlanIntent
    runtime := {}
    session := session0
      ++ [{ role := Role.user, content := "[AGENT_GOAL:" ++ deps.agentId ++ "] " ++ deps.goal }] }

/-- `n` iterations of the main loop, consuming the oracle from the front
(`oracle i` is the outcome bundle of iteration `i`). -/
def loopRun (deps : LoopDeps) (oracle : Nat → OracleStep) : Nat → LoopSt → LoopSt
  | 0, st => st
  | n + 1, st => loopRun deps (fun i => oracle (i + 1)) n (loopIter deps (oracle 0) st)

/-! ## Claim C3 — session-commit versus event order in the worker turn -/

/-- Recognizes a `tool-result` publication in an effect trace. -/
def isToolResultEvent : Eff → Bool
  | .publish (.toolResultEv _ _ _ _ _ _) => true
  | _ => false

/-- Recognizes an `ask-answer` publication in an effect trace. -/
def isAskAnswerEvent : Eff → Bool
  | .publish (.askAnswerEv _ _) => true
  | _ => false

/-- Recognizes a session write (append+persist or replace+persist). -/
def isSessionWrite : Eff → Bool
  | .appendPersist _ => true
  | .replacePersist _ => true
  | _ => false

/-- A sample sandbox result for concrete traces. -/
def sampleToolResult : ToolResult :=
  { cmd := "ls -1", exitCode := 0, stdout := "src\n", stderr := "",
    runner := "local", workspaceGroupId := "w" }

/-- Sample per-run constants for concrete traces. -/
def sampleDeps : LoopDeps := { goal := "g", maxSteps := 3, contextLimitTokens := 8192 }

/-- **C3, counterexample.** The claim states that the
`[WORKER_TOOL_k]`/`[WORKER_TOOL_RESULT_k]` entries are persisted before
the `tool-result` event for step k is published, and likewise the ask
entries before `ask-answer`.  False: in `handleWorkerTurn` the
`tool-result` publication (trace position 4) precedes the sole session
write (position 5), and the same holds for `ask-answer`; no session write
precedes either event. -/
theorem tool_result_event_precedes_session_commit :
    (let trace := (handleWorkerTurn sampleDeps {} []
        { worker := .callTool "ls -1" "enumerate" sampleToolResult }).effects
     trace.findIdx isToolResultEvent = 4 ∧ trace.findIdx isSessionWrite = 5
       ∧ ¬ trace.findIdx isSessionWrite < trace.findIdx isToolResultEvent)
    ∧ (let trace := (handleWorkerTurn sampleDeps {} []
        { worker := .ask "inspect node_modules? (YES/NO)" " NO " }).effects
       trace.findIdx isAskAnswerEvent = 4 ∧ trace.findIdx isSessionWrite = 5
         ∧ ¬ trace.findIdx isSessionWrite < trace.findIdx isAskAnswerEvent) := by
  decide

/-- **C3, amended.** For every `call_tool` handled at step k the session
entries `[WORKER_TOOL_k]` and `[WORKER_TOOL_RESULT_k]` are appended, in
that order, in one append+persist — but that write happens immediately
*after* the `tool-result` event for step k is published, not before; the
`ask` branch appends `[WORKER_ASK_k]`/`[WORKER_ASK_ANSWER_k]` in order,
likewise after the `ask-answer` publication.  The full effect traces: -/
theorem worker_turn_commit_order (deps : LoopDeps) (rt : LoopRuntime) (session : List Msg)
    (o o' : OracleStep) (cmd reason question answer : String) (result : ToolResult)
    (h : rt.step ≤ deps.maxSteps)
    (ho : o.worker = .callTool cmd reason result)
    (ho' : o'.worker = .ask question answer) :
    ((handleWorkerTurn deps rt session o).effects
      = [Eff.publish (.loopStateEv .AcquireEvidence rt.step rt.evidence.length
           ("worker evidence loop step=" ++ toString rt.step
             ++ " (max=" ++ toString deps.maxSteps ++ ")")),
         Eff.publish (.workerStartEv rt.step),
         Eff.publish (.workerActionEv rt.step "call_tool" reason),
         Eff.publish (.toolStartEv rt.step cmd),
         Eff.publish (.toolResultEv rt.step result.exitCode result.stdout result.stderr
           result.runner result.workspaceGroupId),
         Eff.appendPersist
           [{ role := Role.system,
              content := "[WORKER_TOOL_" ++ toString rt.step ++ "] " ++ result.cmd },
            { role := Role.system,
              content := "[WORKER_TOOL_RESULT_" ++ toString rt.step
                ++ "] exit=" ++ toString result.exitCode }]]
      ∧ (handleWorkerTurn deps rt session o).session
        = session
          ++ [{ role := Role.system,
                content := "[WORKER_TOOL_" ++ toString rt.step ++ "] " ++ result.cmd },
              { role := Role.system,
                content := "[WORKER_TOOL_RESULT_" ++ toString rt.step
                  ++ "] exit=" ++ toString result.exitCode }])
    ∧ ((handleWorkerTurn deps rt session o').effects
      = [Eff.publish (.loopStateEv .AcquireEvidence rt.step rt.evidence.length
           ("worker evidence loop step=" ++ toString rt.step
             ++ " (max=" ++ toString deps.maxSteps ++ ")")),
         Eff.publish (.workerStartEv rt.step),
         Eff.publish (.workerActionEv rt.step "ask" question),
         Eff.publish (.askEv rt.step question),
         Eff.publish (.askAnswerEv rt.step (jsTrim answer)),
         Eff.appendPersist
           [{ role := Role.user,
              content := "[WORKER_ASK_" ++ toString rt.step ++ "] " ++ question },
            { role := Role.user,
              content := "[WORKER_ASK_ANSWER_" ++ toString rt.step ++ "] " ++ jsTrim answer }]]
      ∧ (handleWorkerTurn deps rt session o').session
        = session
          ++ [{ role := Role.user,
                content := "[WORKER_ASK_" ++ toString rt.step ++ "] " ++ question },
              { role := Role.user,
                content := "[WORKER_ASK_ANSWER_" ++ toString rt.step ++ "] " ++ jsTrim answer }]) := by
  have hnot : ¬ rt.step > deps.maxSteps := by omega
  refine ⟨?_, ?_⟩
  · unfold handleWorkerTurn
    rw [if_neg hnot, ho]
    exact ⟨rfl, rfl⟩
  · unfold handleWorkerTurn
    rw [if_neg hnot, ho']
    exact ⟨rfl, rfl⟩

/-- Witness for `worker_turn_commit_order` at step 1 with the sample
tool result. -/
theorem worker_turn_commit_order_witness :
    (1 : Nat) ≤ sampleDeps.maxSteps
    ∧ ((handleWorkerTurn sampleDeps {} []
          { worker := .callTool "ls -1" "enumerate" sampleToolResult }).session
        = [{ role := Role.system, content := "[WORKER_TOOL_1] ls -1" },
           { role := Role.system, content := "[WORKER_TOOL_RESULT_1] exit=0" }]) := by
  refine ⟨by decide, ?_⟩
  have h := worker_turn_commit_order sampleDeps {} []
    { worker := .callTool "ls -1" "enumerate" sampleToolResult }
    { worker := .ask "q" "a" } "ls -1" "enumerate" "q" "a" sampleToolResult
    (by decide) rfl rfl
  rw [h.1.2]
  decide

/-! ## Claim C8 — the worker validation-failure branch -/

/-- **C8.** When `askWorkerForAction` fails at the retry cap during
`AcquireEvidence` at step k (it throws; `handleWorkerTurn` catches),
the handler publishes a synthetic `worker-action` event with action
`finalize` carrying the failure message, pushes a `main_guidance`
evidence item with that message, records
`runtime.forcedSynthesisReason`, appends the
`[WORKER_VALIDATION_FAIL_k]` system entry to the session (persisted),
and transitions to `ForcedSynthesis` instead of aborting the run. -/
theorem worker_validation_failure_branch (deps : LoopDeps) (rt : LoopRuntime)
    (session : List Msg) (o : OracleStep) (reason : String)
    (h : rt.step ≤ deps.maxSteps) (ho : o.worker = .failure reason) :
    (handleWorkerTurn deps rt session o).next = .ForcedSynthesis
    ∧ (handleWorkerTurn deps rt session o).effects
      = [Eff.publish (.loopStateEv .AcquireEvidence rt.step rt.evidence.length
           ("worker evidence loop step=" ++ toString rt.step
             ++ " (max=" ++ toString deps.maxSteps ++ ")")),
         Eff.publish (.workerStartEv rt.step),
         Eff.publish (.workerActionEv rt.step "finalize"
           ("Worker validation failed at step " ++ toString rt.step
             ++ ". Proceed to main finalization using collected evidence. " ++ reason)),
         Eff.appendPersist
           [{ role := Role.system,
              content := "[WORKER_VALIDATION_FAIL_" ++ toString rt.step ++ "] " ++ reason }]]
    ∧ (handleWorkerTurn deps rt session o).runtime.evidence
      = rt.evidence
        ++ [{ kind := .main_guidance,
              summary := "Worker validation failed at step " ++ toString rt.step
                ++ ". Proceed to main finalization using collected evidence. " ++ reason }]
    ∧ (handleWorkerTurn deps rt session o).runtime.forcedSynthesisReason
      = some ("worker validation failed at step " ++ toString rt.step ++ ": " ++ reason)
    ∧ (handleWorkerTurn deps rt session o).session
      = session
        ++ [{ role := Role.system,
              content := "[WORKER_VALIDATION_FAIL_" ++ toString rt.step ++ "] " ++ reason }] := by
  have hnot : ¬ rt.step > deps.maxSteps := by omega
  unfold handleWorkerTurn
  rw [if_neg hnot, ho]
  exact ⟨rfl, rfl, rfl, rfl, rfl⟩

/-- Witness for `worker_validation_failure_branch` at step 1. -/
theorem worker_validation_failure_branch_witness :
    (1 : Nat) ≤ sampleDeps.maxSteps
    ∧ (handleWorkerTurn sampleDeps {} [] { worker := .failure "invalid JSON" }).next
        = LoopState.ForcedSynthesis := by
  refine ⟨by decide, ?_⟩
  exact (worker_validation_failure_branch sampleDeps {} [] { worker := .failure "invalid JSON" }
    "invalid JSON" (by decide) rfl).1

/-! ## Claim C6 — the compaction bound -/

/-- After a head-dropping loop, either the deduplicated rebuild fits the
target or at most `minLen` recent messages remain. -/
theorem shrinkRecent_post (base : List Msg) (target minLen : Nat) :
    ∀ recent : List Msg,
      estimateSessionTokens (dedupeMessages (base ++ shrinkRecent base target minLen recent))
          ≤ target
      ∨ (shrinkRecent base target minLen recent).length ≤ minLen := by
  intro recent
  induction recent with
  | nil => right; simp [shrinkRecent]
  | cons m rest ih =>
    rw [shrinkRecent]
    by_cases hc : estimateSessionTokens (dedupeMessages (base ++ (m :: rest))) > target
        ∧ (m :: rest).length > minLen
    · rw [if_pos hc]
      exact ih
    · rw [if_neg hc]
      push_neg at hc
      by_cases ht : estimateSessionTokens (dedupeMessages (base ++ (m :: rest))) > target
      · right
        exact hc ht
      · left
        omega

/-- Deduplication does not lengthen a list. -/
theorem dedupeMessagesAux_length_le (l : List Msg) :
    ∀ seen : List String, (dedupeMessagesAux l seen).length ≤ l.length := by
  induction l with
  | nil => intro seen; simp [dedupeMessagesAux]
  | cons m rest ih =>
    intro seen
    rw [dedupeMessagesAux]
    by_cases hc : seen.contains (messageKey m)
    · rw [if_pos hc]
      have := ih seen
      simp only [List.length_cons]
      omega
    · rw [if_neg hc]
      have := ih (messageKey m :: seen)
      simp only [List.length_cons]
      omega

/-- The rebuilt message list either fits the target or holds at most one
message beyond the base (base system message, if any, plus summary). -/
theorem buildCompacted_bounds (messages : List Msg) (summaryDoc : String) (target : Nat) :
    estimateSessionTokens (buildCompactedSessionMessages messages summaryDoc target) ≤ target
    ∨ (buildCompactedSessionMessages messages summaryDoc target).length
        ≤ (compactionBase messages summaryDoc).length + 1 := by
  unfold buildCompactedSessionMessages
  set base := compactionBase messages summaryDoc with hbase
  set nonCompaction := messages.filter
    (fun m => !(m.role = Role.system && jsStartsWith m.content COMPACTION_MARKER))
  set recent0 := (lastN COMPACTION_MAX_RECENT_MESSAGES nonCompaction).map
    (fun m => { role := m.role, content := jsTrim m.content : Msg })
  set recent1 := shrinkRecent base target COMPACTION_MIN_RECENT_MESSAGES recent0
  set recent2 :=
    if estimateSessionTokens (dedupeMessages (base ++ recent1)) > target then
      recent1.map (fun m => { m with content := clipText m.content COMPACTION_CLIP_CHARS })
    else recent1
  rcases shrinkRecent_post base target 1 recent2 with hfit | hshort
  · left
    exact hfit
  · right
    calc (dedupeMessages (base ++ shrinkRecent base target 1 recent2)).length
        ≤ (base ++ shrinkRecent base target 1 recent2).length :=
          dedupeMessagesAux_length_le _ []
      _ = base.length + (shrinkRecent base target 1 recent2).length := by
          simp
      _ ≤ base.length + 1 := by omega

/-- **C6, counterexample.** The claim states that a compaction-eligible
session is rebuilt to fit `targetTokens` or to keep (exactly) one recent
message beyond the base system + summary.  A session of 24 compaction
summaries has no non-compaction message at all: the rebuild keeps *zero*
recent messages — only the fresh summary document — and its estimate can
still exceed `targetTokens` (here 61 > 22 with `contextLimitTokens = 40`). -/
theorem compaction_zero_recent_counterexample :
    (List.replicate 24 ({ role := Role.system, content := "[SESSION_COMPACTION] x" } : Msg)).length
        ≥ COMPACTION_MIN_MESSAGES
    ∧ estimateSessionTokens
        (List.replicate 24 ({ role := Role.system, content := "[SESSION_COMPACTION] x" } : Msg))
      ≥ (computeCompactionPlan
          (List.replicate 24 ({ role := Role.system, content := "[SESSION_COMPACTION] x" } : Msg))
          40).triggerTokens
    ∧ estimateSessionTokens
        (handleContextCompaction { goal := "g", maxSteps := 1, contextLimitTokens := 40 } {}
          (List.replicate 24 ({ role := Role.system, content := "[SESSION_COMPACTION] x" } : Msg))
          { now := "t" }).session
      > (computeCompactionPlan
          (List.replicate 24 ({ role := Role.system, content := "[SESSION_COMPACTION] x" } : Msg))
          40).targetTokens
    ∧ (handleContextCompaction { goal := "g", maxSteps := 1, contextLimitTokens := 40 } {}
        (List.replicate 24 ({ role := Role.system, content := "[SESSION_COMPACTION] x" } : Msg))
        { now := "t" }).session.length
      = (compactionBase
          (List.replicate 24 ({ role := Role.system, content := "[SESSION_COMPACTION] x" } : Msg))
          (buildCompactionSummaryDocument "g" "t" {}
            (List.replicate 24 ({ role := Role.system, content := "[SESSION_COMPACTION] x" } : Msg)))).length := by
  set_option maxRecDepth 100000 in refine ⟨by decide, by decide, by decide, by decide⟩

/-- **C6, amended.** For every session whose estimated token count is at
least `triggerTokens` and whose message count is at least
`MIN_MESSAGES` (24), `handleContextCompaction` rebuilds
`session.messages` so that either the estimate of the result is at most
`targetTokens`, or the result keeps *at most* one recent message beyond
the base system message and the new compaction summary message. -/
theorem compaction_result_bound (deps : LoopDeps) (rt : LoopRuntime) (session : List Msg)
    (o : OracleStep)
    (hlen : session.length ≥ COMPACTION_MIN_MESSAGES)
    (htok : estimateSessionTokens session
      ≥ (computeCompactionPlan session deps.contextLimitTokens).triggerTokens) :
    estimateSessionTokens (handleContextCompaction deps rt session o).session
      ≤ (computeCompactionPlan session deps.contextLimitTokens).targetTokens
    ∨ (handleContextCompaction deps rt session o).session.length
      ≤ (compactionBase session
          (buildCompactionSummaryDocument deps.goal o.now rt session)).length + 1 := by
  have hshould : (computeCompactionPlan session deps.contextLimitTokens).shouldCompact = true := by
    unfold computeCompactionPlan at htok ⊢
    simp only [ge_iff_le, Bool.and_eq_true, decide_eq_true_eq]
    exact ⟨hlen, htok⟩
  unfold handleContextCompaction
  simp only [hshould, Bool.not_true, Bool.false_eq_true, if_false]
  exact buildCompacted_bounds session
    (buildCompactionSummaryDocument deps.goal o.now rt session)
    (computeCompactionPlan session deps.contextLimitTokens).targetTokens

/-- Witness for `compaction_result_bound` on the 24-summary session. -/
theorem compaction_result_bound_witness :
    ((List.replicate 24 ({ role := Role.system, content := "[SESSION_COMPACTION] x" } : Msg)).length
        ≥ COMPACTION_MIN_MESSAGES)
    ∧ (estimateSessionTokens
        (handleContextCompaction { goal := "g", maxSteps := 1, contextLimitTokens := 40 } {}
          (List.replicate 24 ({ role := Role.system, content := "[SESSION_COMPACTION] x" } : Msg))
          { now := "t" }).session
        ≤ (computeCompactionPlan
            (List.replicate 24 ({ role := Role.system, content := "[SESSION_COMPACTION] x" } : Msg))
            40).targetTokens
      ∨ (handleContextCompaction { goal := "g", maxSteps := 1, contextLimitTokens := 40 } {}
          (List.replicate 24 ({ role := Role.system, content := "[SESSION_COMPACTION] x" } : Msg))
          { now := "t" }).session.length
        ≤ (compactionBase
            (List.replicate 24 ({ role := Role.system, content := "[SESSION_COMPACTION] x" } : Msg))
            (buildCompactionSummaryDocument "g" "t" {}
              (List.replicate 24 ({ role := Role.system, content := "[SESSION_COMPACTION] x" } : Msg)))).length
          + 1) :=
  ⟨by decide,
   compaction_result_bound { goal := "g", maxSteps := 1, contextLimitTokens := 40 } {}
     (List.replicate 24 ({ role := Role.system, content := "[SESSION_COMPACTION] x" } : Msg))
     { now := "t" } (by decide) (by decide)⟩

/-! ## Claims C4 and C5 — step discipline and termination of the loop

The lemmas below characterize, per stage handler, the fields that the
loop-level invariants depend on: the step counter, the resume state, and
the returned next state. -/

/-- `handlePlanningTurn` leaves `step` and the resume state unchanged and
returns `AcquireEvidence`, `AssessSufficiency` or `Done`. -/
theorem handlePlanningTurn_proj (deps : LoopDeps) (rt : LoopRuntime) (session : List Msg)
    (o : OracleStep) :
    (handlePlanningTurn deps rt session o).runtime.step = rt.step
    ∧ (handlePlanningTurn deps rt session o).runtime.resumeStateAfterCompaction
        = rt.resumeStateAfterCompaction
    ∧ ((handlePlanningTurn deps rt session o).next = LoopState.AcquireEvidence
       ∨ (handlePlanningTurn deps rt session o).next = LoopState.AssessSufficiency
       ∨ (handlePlanningTurn deps rt session o).next = LoopState.Done) := by
  unfold handlePlanningTurn
  repeat' split
  all_goals simp

/-- `handleWorkerTurn` leaves the resume state unchanged; beyond the step
cap it returns `ForcedSynthesis` without touching `step`; within the cap
it increments `step` exactly on the `call_tool` and `ask` branches (which
stay in `AcquireEvidence`) and keeps it on the failure branch
(`ForcedSynthesis`) and the `finalize` branch (`AssessSufficiency`). -/
theorem handleWorkerTurn_proj (deps : LoopDeps) (rt : LoopRuntime) (session : List Msg)
    (o : OracleStep) :
    (handleWorkerTurn deps rt session o).runtime.resumeStateAfterCompaction
        = rt.resumeStateAfterCompaction
    ∧ (rt.step > deps.maxSteps →
        (handleWorkerTurn deps rt session o).next = LoopState.ForcedSynthesis
        ∧ (handleWorkerTurn deps rt session o).runtime.step = rt.step)
    ∧ (rt.step ≤ deps.maxSteps →
        ((∀ reason, o.worker = .failure reason →
            (handleWorkerTurn deps rt session o).next = LoopState.ForcedSynthesis
            ∧ (handleWorkerTurn deps rt session o).runtime.step = rt.step)
         ∧ (∀ cmd reason result, o.worker = .callTool cmd reason result →
            (handleWorkerTurn deps rt session o).next = LoopState.AcquireEvidence
            ∧ (handleWorkerTurn deps rt session o).runtime.step = rt.step + 1)
         ∧ (∀ question answer, o.worker = .ask question answer →
            (handleWorkerTurn deps rt session o).next = LoopState.AcquireEvidence
            ∧ (handleWorkerTurn deps rt session o).runtime.step = rt.step + 1)
         ∧ (o.worker = .finalize →
            (handleWorkerTurn deps rt session o).next = LoopState.AssessSufficiency
            ∧ (handleWorkerTurn deps rt session o).runtime.step = rt.step))) := by
  unfold handleWorkerTurn
  by_cases hcap : rt.step > deps.maxSteps
  · rw [if_pos hcap]
    refine ⟨rfl, fun _ => ⟨rfl, rfl⟩, fun hle => absurd hle (by omega)⟩
  · rw [if_neg hcap]
    rcases hw : o.worker with reason | ⟨cmd, reason, result⟩ | ⟨question, answer⟩ | _
    all_goals
      refine ⟨by simp, fun hgt => absurd hgt hcap, fun _ => ⟨?_, ?_, ?_, ?_⟩⟩
    all_goals intros
    all_goals rename_i heq
    all_goals cases heq <;> exact ⟨by simp, by simp⟩

/-- `handleMainDecisionTurn` leaves the resume state unchanged; on a
structured failure or a `continue` decision it increments `step` and
returns `AcquireEvidence`; on `finalize` it keeps `step` and returns
`Done`. -/
theorem handleMainDecisionTurn_proj (deps : LoopDeps) (rt : LoopRuntime) (session : List Msg)
    (o : OracleStep) :
    (handleMainDecisionTurn deps rt session o).runtime.resumeStateAfterCompaction
        = rt.resumeStateAfterCompaction
    ∧ (((handleMainDecisionTurn deps rt session o).next = LoopState.AcquireEvidence
        ∧ (handleMainDecisionTurn deps rt session o).runtime.step = rt.step + 1)
       ∨ ((handleMainDecisionTurn deps rt session o).next = LoopState.Done
        ∧ (handleMainDecisionTurn deps rt session o).runtime.step = rt.step)) := by
  unfold handleMainDecisionTurn
  repeat' split
  all_goals simp

/-- `handleForceFinalizeTurn` always returns `Done`, leaving `step` and
the resume state unchanged. -/
theorem handleForceFinalizeTurn_proj (deps : LoopDeps) (rt : LoopRuntime) (session : List Msg)
    (o : OracleStep) :
    (handleForceFinalizeTurn deps rt session o).next = LoopState.Done
    ∧ (handleForceFinalizeTurn deps rt session o).runtime.step = rt.step
    ∧ (handleForceFinalizeTurn deps rt session o).runtime.resumeStateAfterCompaction
        = rt.resumeStateAfterCompaction := by
  unfold handleForceFinalizeTurn
  repeat' split
  all_goals simp

/-- `handleContextCompaction` returns the resume state, leaving `step`
and the resume state unchanged. -/
theorem handleContextCompaction_proj (deps : LoopDeps) (rt : LoopRuntime) (session : List Msg)
    (o : OracleStep) :
    (handleContextCompaction deps rt session o).next = rt.resumeStateAfterCompaction
    ∧ (handleContextCompaction deps rt session o).runtime.step = rt.step
    ∧ (handleContextCompaction deps rt session o).runtime.resumeStateAfterCompaction
        = rt.resumeStateAfterCompaction := by
  unfold handleContextCompaction
  by_cases hsc : (computeCompactionPlan session deps.contextLimitTokens).shouldCompact
  all_goals simp [hsc]

/-! ## Claims C4 and C5 — step discipline and termination of the loop -/

/-- The step-counter invariant of the loop: `step` stays within
`[1, maxSteps + 1]`, the resume state is a real stage, `PlanIntent` is
only ever visited at `step = 1`, and `AssessSufficiency` (also as a
pending resume state) only with `step ≤ maxSteps`. -/
def StepInv (deps : LoopDeps) (st : LoopSt) : Prop :=
  1 ≤ st.runtime.step
  ∧ st.runtime.step ≤ deps.maxSteps + 1
  ∧ st.runtime.resumeStateAfterCompaction ≠ LoopState.ContextGuard
  ∧ st.runtime.resumeStateAfterCompaction ≠ LoopState.Done
  ∧ (st.state = LoopState.PlanIntent → st.runtime.step = 1)
  ∧ (st.state = LoopState.AssessSufficiency → st.runtime.step ≤ deps.maxSteps)
  ∧ (st.state = LoopState.ContextGuard →
      (st.runtime.resumeStateAfterCompaction = LoopState.PlanIntent → st.runtime.step = 1)
      ∧ (st.runtime.resumeStateAfterCompaction = LoopState.AssessSufficiency →
          st.runtime.step ≤ deps.maxSteps))

/-- One iteration preserves the step-counter invariant. -/
theorem stepInv_loopIter (deps : LoopDeps) (h1 : 1 ≤ deps.maxSteps) (o : OracleStep)
    (st : LoopSt) (hInv : StepInv deps st) : StepInv deps (loopIter deps o st) := by
  obtain ⟨i1, i2, i3, i4, i5, i6, i7⟩ := hInv
  unfold loopIter
  by_cases hd : st.state = LoopState.Done
  · rw [if_pos hd]
    exact ⟨i1, i2, i3, i4, i5, i6, i7⟩
  · rw [if_neg hd]
    by_cases hg : guardCond deps st.state st.runtime st.session = true
    · rw [if_pos hg]
      have hstate : st.state ≠ LoopState.ContextGuard := by
        intro hh
        unfold guardCond at hg
        rw [hh] at hg
        simp at hg
      refine ⟨by simpa using i1, by simpa using i2, by simpa using hstate,
        by simpa using hd, ?_, ?_, ?_⟩
      · intro hq
        simp only at hq
        exact LoopState.noConfusion hq
      · intro hq
        simp only at hq
        exact LoopState.noConfusion hq
      · intro _
        refine ⟨fun hr => i5 (by simpa using hr), fun hr => i6 (by simpa using hr)⟩
    · rw [if_neg hg]
      cases hs : st.state with
      | Done => exact absurd hs hd
      | PlanIntent =>
        obtain ⟨p1, p2, p3⟩ := handlePlanningTurn_proj deps st.runtime st.session o
        have hstep1 : st.runtime.step = 1 := i5 hs
        refine ⟨by simp only [p1]; omega, by simp only [p1]; omega,
          by simp only [p2]; exact i3, by simp only [p2]; exact i4, ?_, ?_, ?_⟩
        · intro _
          simp only [p1]
          exact hstep1
        · intro _
          simp only [p1]
          omega
        · intro hq
          simp only at hq
          rcases p3 with hn | hn | hn <;> rw [hn] at hq <;> exact LoopState.noConfusion hq
      | AcquireEvidence =>
        obtain ⟨w1, w2, w3⟩ := handleWorkerTurn_proj deps st.runtime st.session o
        by_cases hcap : st.runtime.step > deps.maxSteps
        · obtain ⟨hn, hstep⟩ := w2 hcap
          refine ⟨by simp only [hstep]; omega, by simp only [hstep]; omega,
            by simp only [w1]; exact i3, by simp only [w1]; exact i4, ?_, ?_, ?_⟩
          all_goals intro hq
          all_goals simp only [hn] at hq
          all_goals exact LoopState.noConfusion hq
        · have hle : st.runtime.step ≤ deps.maxSteps := by omega
          obtain ⟨wf, wc, wa, wz⟩ := w3 hle
          have hsplit :
              ((handleWorkerTurn deps st.runtime st.session o).next = LoopState.ForcedSynthesis
                ∧ (handleWorkerTurn deps st.runtime st.session o).runtime.step = st.runtime.step)
              ∨ ((handleWorkerTurn deps st.runtime st.session o).next = LoopState.AcquireEvidence
                ∧ (handleWorkerTurn deps st.runtime st.session o).runtime.step
                    = st.runtime.step + 1)
              ∨ ((handleWorkerTurn deps st.runtime st.session o).next = LoopState.AssessSufficiency
                ∧ (handleWorkerTurn deps st.runtime st.session o).runtime.step
                    = st.runtime.step) := by
            rcases hw : o.worker with reason | ⟨cmd, reason, result⟩ | ⟨question, answer⟩ | _
            · exact Or.inl (wf reason hw)
            · exact Or.inr (Or.inl (wc cmd reason result hw))
            · exact Or.inr (Or.inl (wa question answer hw))
            · exact Or.inr (Or.inr (wz hw))
          rcases hsplit with ⟨hn, hstep⟩ | ⟨hn, hstep⟩ | ⟨hn, hstep⟩
          · refine ⟨by simp only [hstep]; omega, by simp only [hstep]; omega,
              by simp only [w1]; exact i3, by simp only [w1]; exact i4, ?_, ?_, ?_⟩
            all_goals intro hq
            all_goals simp only [hn] at hq
            all_goals exact LoopState.noConfusion hq
          · refine ⟨by simp only [hstep]; omega, by simp only [hstep]; omega,
              by simp only [w1]; exact i3, by simp only [w1]; exact i4, ?_, ?_, ?_⟩
            all_goals intro hq
            all_goals simp only [hn] at hq
            all_goals exact LoopState.noConfusion hq
          · refine ⟨by simp only [hstep]; omega, by simp only [hstep]; omega,
              by simp only [w1]; exact i3, by simp only [w1]; exact i4, ?_, ?_, ?_⟩
            · intro hq
              simp only [hn] at hq
              exact LoopState.noConfusion hq
            · intro _
              simp only [hstep]
              omega
            · intro hq
              simp only [hn] at hq
              exact LoopState.noConfusion hq
      | AssessSufficiency =>
        obtain ⟨m1, m2⟩ := handleMainDecisionTurn_proj deps st.runtime st.session o
        have hle : st.runtime.step ≤ deps.maxSteps := i6 hs
        rcases m2 with ⟨hn, hstep⟩ | ⟨hn, hstep⟩ <;>
          refine ⟨by simp only [hstep]; omega, by simp only [hstep]; omega,
            by simp only [m1]; exact i3, by simp only [m1]; exact i4, ?_, ?_, ?_⟩ <;>
          intro hq <;> simp only [hn] at hq <;> exact LoopState.noConfusion hq
      | ForcedSynthesis =>
        obtain ⟨f1, f2, f3⟩ := handleForceFinalizeTurn_proj deps st.runtime st.session o
        refine ⟨by simp only [f2]; omega, by simp only [f2]; omega,
          by simp only [f3]; exact i3, by simp only [f3]; exact i4, ?_, ?_, ?_⟩
        all_goals intro hq
        all_goals simp only [f1] at hq
        all_goals exact LoopState.noConfusion hq
      | ContextGuard =>
        obtain ⟨c1, c2, c3⟩ := handleContextCompaction_proj deps st.runtime st.session o
        obtain ⟨g5, g6⟩ := i7 hs
        refine ⟨by simp only [c2]; omega, by simp only [c2]; omega,
          by simp only [c3]; exact i3, by simp only [c3]; exact i4, ?_, ?_, ?_⟩
        · intro hq
          simp only [c1] at hq
          simp only [c2]
          exact g5 hq
        · intro hq
          simp only [c1] at hq
          simp only [c2]
          exact g6 hq
        · intro hq
          simp only [c1] at hq
          exact absurd hq i3

/-- After the `ContextGuard` handler ran, the pre-emption guard cannot
fire again until a handler changes the session: either compaction was
skipped (`shouldCompact` is false on the unchanged session) or the stored
signature equals the compacted session's signature. -/
theorem guard_false_after_CG (deps : LoopDeps) (o : OracleStep) (st : LoopSt)
    (h : st.state = LoopState.ContextGuard) :
    guardCond deps (loopIter deps o st).state (loopIter deps o st).runtime
      (loopIter deps o st).session = false := by
  have hd : st.state ≠ LoopState.Done := by
    rw [h]
    intro hq
    exact LoopState.noConfusion hq
  have hg : ¬ guardCond deps st.state st.runtime st.session = true := by
    unfold guardCond
    rw [h]
    simp
  unfold loopIter
  rw [if_neg hd, if_neg hg, h]
  unfold handleContextCompaction
  by_cases hsc : (computeCompactionPlan st.session deps.contextLimitTokens).shouldCompact
  · simp only [hsc, Bool.not_true, Bool.false_eq_true, if_false]
    unfold guardCond
    simp
  · simp only [Bool.not_eq_true] at hsc
    simp only [hsc, Bool.not_false, if_true]
    unfold guardCond
    simp [hsc]

/-- Ranking of the loop states by distance from `Done` (the rank of
`ContextGuard` itself is unused: `rankOf` ranks its resume state). -/
def stateRank : LoopState → Nat
  | .Done => 0
  | .ForcedSynthesis => 1
  | .AssessSufficiency => 2
  | .AcquireEvidence => 3
  | .PlanIntent => 4
  | .ContextGuard => 5

/-- Rank of a loop state; inside `ContextGuard` the rank of the state the
loop will resume. -/
def rankOf (st : LoopSt) : Nat :=
  match st.state with
  | .ContextGuard => stateRank st.runtime.resumeStateAfterCompaction
  | s => stateRank s

/-- The guard phase: `2` when the compaction pre-emption is about to fire,
`1` inside `ContextGuard`, `0` otherwise. -/
def phaseOf (deps : LoopDeps) (st : LoopSt) : Nat :=
  if st.state = LoopState.ContextGuard then 1
  else if guardCond deps st.state st.runtime st.session then 2
  else 0

/-- The termination measure of the main loop. -/
def loopMeasure (deps : LoopDeps) (st : LoopSt) : Nat :=
  100 * (deps.maxSteps + 2 - st.runtime.step) + 3 * rankOf st + phaseOf deps st

/-- The guard phase is at most 2. -/
theorem phaseOf_le_two (deps : LoopDeps) (st : LoopSt) : phaseOf deps st ≤ 2 := by
  unfold phaseOf
  by_cases h1 : st.state = LoopState.ContextGuard
  · rw [if_pos h1]
    omega
  · rw [if_neg h1]
    by_cases h2 : guardCond deps st.state st.runtime st.session = true
    · rw [if_pos h2]
    · rw [if_neg h2]
      omega

/-- Outside `ContextGuard`, `rankOf` is the rank of the current state. -/
theorem rankOf_ne_CG (st : LoopSt) (h : st.state ≠ LoopState.ContextGuard) :
    rankOf st = stateRank st.state := by
  unfold rankOf
  cases hs : st.state <;> first | rfl | exact absurd hs h

/-- Inside `ContextGuard`, `rankOf` is the rank of the resume state. -/
theorem rankOf_eq_CG (st : LoopSt) (h : st.state = LoopState.ContextGuard) :
    rankOf st = stateRank st.runtime.resumeStateAfterCompaction := by
  unfold rankOf
  rw [h]

/-- Dispatch equation of `loopIter` at `ContextGuard`. -/
theorem loopIter_dispatch_cg (deps : LoopDeps) (o : OracleStep) (st : LoopSt)
    (hd : st.state ≠ LoopState.Done)
    (hg : ¬ guardCond deps st.state st.runtime st.session = true)
    (hs : st.state = LoopState.ContextGuard) :
    loopIter deps o st =
      { state := (handleContextCompaction deps st.runtime st.session o).next
        runtime := (handleContextCompaction deps st.runtime st.session o).runtime
        session := (handleContextCompaction deps st.runtime st.session o).session } := by
  unfold loopIter
  rw [if_neg hd, if_neg hg, hs]

/-- Dispatch equation of `loopIter` at `PlanIntent`. -/
theorem loopIter_dispatch_plan (deps : LoopDeps) (o : OracleStep) (st : LoopSt)
    (hd : st.state ≠ LoopState.Done)
    (hg : ¬ guardCond deps st.state st.runtime st.session = true)
    (hs : st.state = LoopState.PlanIntent) :
    loopIter deps o st =
      { state := (handlePlanningTurn deps st.runtime st.session o).next
        runtime := (handlePlanningTurn deps st.runtime st.session o).runtime
        session := (handlePlanningTurn deps st.runtime st.session o).session } := by
  unfold loopIter
  rw [if_neg hd, if_neg hg, hs]

/-- Dispatch equation of `loopIter` at `AcquireEvidence`. -/
theorem loopIter_dispatch_worker (deps : LoopDeps) (o : OracleStep) (st : LoopSt)
    (hd : st.state ≠ LoopState.Done)
    (hg : ¬ guardCond deps st.state st.runtime st.session = true)
    (hs : st.state = LoopState.AcquireEvidence) :
    loopIter deps o st =
      { state := (handleWorkerTurn deps st.runtime st.session o).next
        runtime := (handleWorkerTurn deps st.runtime st.session o).runtime
        session := (handleWorkerTurn deps st.runtime st.session o).session } := by
  unfold loopIter
  rw [if_neg hd, if_neg hg, hs]

/-- Dispatch equation of `loopIter` at `AssessSufficiency`. -/
theorem loopIter_dispatch_main (deps : LoopDeps) (o : OracleStep) (st : LoopSt)
    (hd : st.state ≠ LoopState.Done)
    (hg : ¬ guardCond deps st.state st.runtime st.session = true)
    (hs : st.state = LoopState.AssessSufficiency) :
    loopIter deps o st =
      { state := (handleMainDecisionTurn deps st.runtime st.session o).next
        runtime := (handleMainDecisionTurn deps st.runtime st.session o).runtime
        session := (handleMainDecisionTurn deps st.runtime st.session o).session } := by
  unfold loopIter
  rw [if_neg hd, if_neg hg, hs]

/-- Dispatch equation of `loopIter` at `ForcedSynthesis`. -/
theorem loopIter_dispatch_forced (deps : LoopDeps) (o : OracleStep) (st : LoopSt)
    (hd : st.state ≠ LoopState.Done)
    (hg : ¬ guardCond deps st.state st.runtime st.session = true)
    (hs : st.state = LoopState.ForcedSynthesis) :
    loopIter deps o st =
      { state := (handleForceFinalizeTurn deps st.runtime st.session o).next
        runtime := (handleForceFinalizeTurn deps st.runtime st.session o).runtime
        session := (handleForceFinalizeTurn deps st.runtime st.session o).session } := by
  unfold loopIter
  rw [if_neg hd, if_neg hg, hs]

/-- Every non-`Done` iteration strictly decreases the loop measure. -/
theorem loopMeasure_decreases (deps : LoopDeps) (o : OracleStep)
    (st : LoopSt) (hInv : StepInv deps st) (hd : st.state ≠ LoopState.Done) :
    loopMeasure deps (loopIter deps o st) < loopMeasure deps st := by
  obtain ⟨i1, i2, i3, i4, i5, i6, i7⟩ := hInv
  have hph' : phaseOf deps (loopIter deps o st) ≤ 2 := phaseOf_le_two deps _
  by_cases hg : guardCond deps st.state st.runtime st.session = true
  · have hcg : st.state ≠ LoopState.ContextGuard := by
      intro hh
      unfold guardCond at hg
      rw [hh] at hg
      simp at hg
    have hiter : loopIter deps o st = { st with
        state := LoopState.ContextGuard
        runtime := { st.runtime with resumeStateAfterCompaction := st.state } } := by
      unfold loopIter
      rw [if_neg hd, if_pos hg]
    have hstep' : (loopIter deps o st).runtime.step = st.runtime.step := by
      rw [hiter]
    have hrank' : rankOf (loopIter deps o st) = stateRank st.state := by
      rw [hiter]
      unfold rankOf
      simp
    have hrank : rankOf st = stateRank st.state := rankOf_ne_CG st hcg
    have hphase' : phaseOf deps (loopIter deps o st) = 1 := by
      rw [hiter]
      unfold phaseOf
      simp
    have hphase : phaseOf deps st = 2 := by
      unfold phaseOf
      rw [if_neg hcg, if_pos hg]
    unfold loopMeasure
    rw [hstep', hrank', hrank, hphase', hphase]
    omega
  · have hphase : phaseOf deps st = if st.state = LoopState.ContextGuard then 1 else 0 := by
      unfold phaseOf
      by_cases h2 : st.state = LoopState.ContextGuard
      · rw [if_pos h2, if_pos h2]
      · rw [if_neg h2, if_neg hg, if_neg h2]
    cases hs : st.state with
    | Done => exact absurd hs hd
    | ContextGuard =>
      obtain ⟨c1, c2, c3⟩ := handleContextCompaction_proj deps st.runtime st.session o
      have hguard' : guardCond deps (loopIter deps o st).state (loopIter deps o st).runtime
          (loopIter deps o st).session = false := guard_false_after_CG deps o st hs
      have hstate' : (loopIter deps o st).state = st.runtime.resumeStateAfterCompaction := by
        rw [loopIter_dispatch_cg deps o st hd hg hs]
        exact c1
      have hstep' : (loopIter deps o st).runtime.step = st.runtime.step := by
        rw [loopIter_dispatch_cg deps o st hd hg hs]
        exact c2
      have hrank' : rankOf (loopIter deps o st)
          = stateRank st.runtime.resumeStateAfterCompaction := by
        rw [rankOf_ne_CG _ (by rw [hstate']; exact i3), hstate']
      have hrank : rankOf st = stateRank st.runtime.resumeStateAfterCompaction :=
        rankOf_eq_CG st hs
      have hphase' : phaseOf deps (loopIter deps o st) = 0 := by
        unfold phaseOf
        rw [if_neg (by rw [hstate']; exact i3), if_neg (by rw [hguard']; simp)]
      unfold loopMeasure
      rw [hstep', hrank', hrank, hphase', hphase, if_pos hs]
      omega
    | PlanIntent =>
      obtain ⟨p1, p2, p3⟩ := handlePlanningTurn_proj deps st.runtime st.session o
      have hstep' : (loopIter deps o st).runtime.step = st.runtime.step := by
        rw [loopIter_dispatch_plan deps o st hd hg hs]
        exact p1
      have hstate' : (loopIter deps o st).state
          = (handlePlanningTurn deps st.runtime st.session o).next := by
        rw [loopIter_dispatch_plan deps o st hd hg hs]
      have hrank' : rankOf (loopIter deps o st) ≤ 3 := by
        rcases p3 with hn | hn | hn <;>
          rw [rankOf_ne_CG _ (by rw [hstate', hn]; intro hq; exact LoopState.noConfusion hq),
            hstate', hn] <;>
          decide
      have hrank : rankOf st = 4 := by
        rw [rankOf_ne_CG st (by rw [hs]; intro hq; exact LoopState.noConfusion hq), hs]
        rfl
      unfold loopMeasure
      rw [hstep', hrank, hphase, if_neg (by rw [hs]; intro hq; exact LoopState.noConfusion hq)]
      omega
    | AcquireEvidence =>
      obtain ⟨w1, w2, w3⟩ := handleWorkerTurn_proj deps st.runtime st.session o
      have hne : st.state ≠ LoopState.ContextGuard := by
        rw [hs]
        intro hq
        exact LoopState.noConfusion hq
      have hrank : rankOf st = 3 := by
        rw [rankOf_ne_CG st hne, hs]
        rfl
      by_cases hcap : st.runtime.step > deps.maxSteps
      · obtain ⟨hn, hstep⟩ := w2 hcap
        have hstep' : (loopIter deps o st).runtime.step = st.runtime.step := by
          rw [loopIter_dispatch_worker deps o st hd hg hs]
          exact hstep
        have hrank' : rankOf (loopIter deps o st) = 1 := by
          rw [rankOf_ne_CG _ (by rw [loopIter_dispatch_worker deps o st hd hg hs]; simp only [hn]; intro hq; exact LoopState.noConfusion hq)]
          rw [loopIter_dispatch_worker deps o st hd hg hs]
          simp only [hn]
          rfl
        unfold loopMeasure
        rw [hstep', hrank, hrank', hphase, if_neg hne]
        omega
      · have hle : st.runtime.step ≤ deps.maxSteps := by omega
        obtain ⟨wf, wc, wa, wz⟩ := w3 hle
        have hsplit :
            (((handleWorkerTurn deps st.runtime st.session o).next = LoopState.ForcedSynthesis
                ∨ (handleWorkerTurn deps st.runtime st.session o).next
                    = LoopState.AssessSufficiency)
              ∧ (handleWorkerTurn deps st.runtime st.session o).runtime.step = st.runtime.step)
            ∨ ((handleWorkerTurn deps st.runtime st.session o).next = LoopState.AcquireEvidence
              ∧ (handleWorkerTurn deps st.runtime st.session o).runtime.step
                  = st.runtime.step + 1) := by
          rcases hw : o.worker with reason | ⟨cmd, reason, result⟩ | ⟨question, answer⟩ | _
          · exact Or.inl ⟨Or.inl (wf reason hw).1, (wf reason hw).2⟩
          · exact Or.inr (wc cmd reason result hw)
          · exact Or.inr (wa question answer hw)
          · exact Or.inl ⟨Or.inr (wz hw).1, (wz hw).2⟩
        rcases hsplit with ⟨hn2, hstep⟩ | ⟨hn, hstep⟩
        · have hstep' : (loopIter deps o st).runtime.step = st.runtime.step := by
            rw [loopIter_dispatch_worker deps o st hd hg hs]
            exact hstep
          have hrank' : rankOf (loopIter deps o st) ≤ 2 := by
            rcases hn2 with hn | hn <;>
              · rw [rankOf_ne_CG _ (by rw [loopIter_dispatch_worker deps o st hd hg hs]; simp only [hn]; intro hq; exact LoopState.noConfusion hq)]
                rw [loopIter_dispatch_worker deps o st hd hg hs]
                simp only [hn]
                decide
          unfold loopMeasure
          rw [hstep', hrank, hphase, if_neg hne]
          omega
        · have hstep' : (loopIter deps o st).runtime.step = st.runtime.step + 1 := by
            rw [loopIter_dispatch_worker deps o st hd hg hs]
            exact hstep
          have hrank' : rankOf (loopIter deps o st) = 3 := by
            rw [rankOf_ne_CG _ (by rw [loopIter_dispatch_worker deps o st hd hg hs]; simp only [hn]; intro hq; exact LoopState.noConfusion hq)]
            rw [loopIter_dispatch_worker deps o st hd hg hs]
            simp only [hn]
            rfl
          unfold loopMeasure
          rw [hstep', hrank, hrank', hphase, if_neg hne]
          omega
    | AssessSufficiency =>
      obtain ⟨m1, m2⟩ := handleMainDecisionTurn_proj deps st.runtime st.session o
      have hne : st.state ≠ LoopState.ContextGuard := by
        rw [hs]
        intro hq
        exact LoopState.noConfusion hq
      have hle : st.runtime.step ≤ deps.maxSteps := i6 hs
      have hrank : rankOf st = 2 := by
        rw [rankOf_ne_CG st hne, hs]
        rfl
      rcases m2 with ⟨hn, hstep⟩ | ⟨hn, hstep⟩
      · have hstep' : (loopIter deps o st).runtime.step = st.runtime.step + 1 := by
          rw [loopIter_dispatch_main deps o st hd hg hs]
          exact hstep
        have hrank' : rankOf (loopIter deps o st) = 3 := by
          rw [rankOf_ne_CG _ (by rw [loopIter_dispatch_main deps o st hd hg hs]; simp only [hn]; intro hq; exact LoopState.noConfusion hq)]
          rw [loopIter_dispatch_main deps o st hd hg hs]
          simp only [hn]
          rfl
        unfold loopMeasure
        rw [hstep', hrank, hrank', hphase, if_neg hne]
        omega
      · have hstep' : (loopIter deps o st).runtime.step = st.runtime.step := by
          rw [loopIter_dispatch_main deps o st hd hg hs]
          exact hstep
        have hrank' : rankOf (loopIter deps o st) = 0 := by
          rw [rankOf_ne_CG _ (by rw [loopIter_dispatch_main deps o st hd hg hs]; simp only [hn]; intro hq; exact LoopState.noConfusion hq)]
          rw [loopIter_dispatch_main deps o st hd hg hs]
          simp only [hn]
          rfl
        unfold loopMeasure
        rw [hstep', hrank, hrank', hphase, if_neg hne]
        omega
    | ForcedSynthesis =>
      obtain ⟨f1, f2, f3⟩ := handleForceFinalizeTurn_proj deps st.runtime st.session o
      have hne : st.state ≠ LoopState.ContextGuard := by
        rw [hs]
        intro hq
        exact LoopState.noConfusion hq
      have hstep' : (loopIter deps o st).runtime.step = st.runtime.step := by
        rw [loopIter_dispatch_forced deps o st hd hg hs]
        exact f2
      have hrank : rankOf st = 1 := by
        rw [rankOf_ne_CG st hne, hs]
        rfl
      have hrank' : rankOf (loopIter deps o st) = 0 := by
        rw [rankOf_ne_CG _ (by rw [loopIter_dispatch_forced deps o st hd hg hs]; simp only [f1]; intro hq; exact LoopState.noConfusion hq)]
        rw [loopIter_dispatch_forced deps o st hd hg hs]
        simp only [f1]
        rfl
      unfold loopMeasure
      rw [hstep', hrank, hrank', hphase, if_neg hne]
      omega

/-- At `Done` the loop has exited: an iteration changes nothing. -/
theorem loopIter_done (deps : LoopDeps) (o : OracleStep) (st : LoopSt)
    (h : st.state = LoopState.Done) : loopIter deps o st = st := by
  unfold loopIter
  rw [if_pos h]

/-- Once the loop is at `Done` it stays there for any number of iterations. -/
theorem loopRun_done_stable (deps : LoopDeps) (n : Nat) :
    ∀ (oracle : Nat → OracleStep) (st : LoopSt), st.state = LoopState.Done →
      (loopRun deps oracle n st).state = LoopState.Done := by
  induction n with
  | zero =>
    intro oracle st h
    exact h
  | succ n ih =>
    intro oracle st h
    simp only [loopRun]
    rw [loopIter_done deps (oracle 0) st h]
    exact ih _ st h

/-- Outside `Done` (with a live resume state) the rank is positive. -/
theorem rankOf_pos (st : LoopSt) (hd : st.state ≠ LoopState.Done)
    (hres : st.runtime.resumeStateAfterCompaction ≠ LoopState.Done) :
    1 ≤ rankOf st := by
  by_cases hcg : st.state = LoopState.ContextGuard
  · rw [rankOf_eq_CG st hcg]
    cases hr : st.runtime.resumeStateAfterCompaction
    all_goals first | exact absurd hr hres | decide
  · rw [rankOf_ne_CG st hcg]
    cases hs : st.state
    all_goals first | exact absurd hs hd | exact absurd hs hcg | decide

/-- Outside `Done` the loop measure is positive. -/
theorem loopMeasure_pos (deps : LoopDeps) (st : LoopSt) (hd : st.state ≠ LoopState.Done)
    (hres : st.runtime.resumeStateAfterCompaction ≠ LoopState.Done) :
    1 ≤ loopMeasure deps st := by
  have h := rankOf_pos st hd hres
  unfold loopMeasure
  omega

/-- With fuel at least the loop measure, the loop reaches `Done`. -/
theorem loopRun_reaches_done (deps : LoopDeps) (h1 : 1 ≤ deps.maxSteps) :
    ∀ (fuel : Nat) (oracle : Nat → OracleStep) (st : LoopSt), StepInv deps st →
      loopMeasure deps st ≤ fuel → (loopRun deps oracle fuel st).state = LoopState.Done := by
  intro fuel
  induction fuel with
  | zero =>
    intro oracle st hInv hm
    by_cases hd : st.state = LoopState.Done
    · exact hd
    · exact absurd hm (by
        have hp := loopMeasure_pos deps st hd hInv.2.2.2.1
        omega)
  | succ n ih =>
    intro oracle st hInv hm
    by_cases hd : st.state = LoopState.Done
    · simp only [loopRun]
      rw [loopIter_done deps (oracle 0) st hd]
      exact loopRun_done_stable deps n _ st hd
    · have hdec := loopMeasure_decreases deps (oracle 0) st hInv hd
      have hInv2 := stepInv_loopIter deps h1 (oracle 0) st hInv
      simp only [loopRun]
      exact ih _ _ hInv2 (by omega)

/-- The initial loop state satisfies the step-counter invariant. -/
theorem stepInv_init (deps : LoopDeps) (session0 : List Msg) :
    StepInv deps (initLoopSt deps session0) := by
  refine ⟨Nat.le_refl 1, ?_, ?_, ?_, ?_, ?_, ?_⟩
  · show 1 ≤ deps.maxSteps + 1
    omega
  · intro hq
    exact LoopState.noConfusion hq
  · intro hq
    exact LoopState.noConfusion hq
  · intro _
    rfl
  · intro hq
    exact LoopState.noConfusion hq
  · intro hq
    exact LoopState.noConfusion hq

/-- The step-counter invariant holds along any run. -/
theorem stepInv_loopRun (deps : LoopDeps) (h1 : 1 ≤ deps.maxSteps) (n : Nat) :
    ∀ (oracle : Nat → OracleStep) (st : LoopSt), StepInv deps st →
      StepInv deps (loopRun deps oracle n st) := by
  induction n with
  | zero =>
    intro oracle st h
    exact h
  | succ n ih =>
    intro oracle st h
    simp only [loopRun]
    exact ih _ _ (stepInv_loopIter deps h1 (oracle 0) st h)

/-- The measure of the initial state is within `100 * maxSteps + 300`. -/
theorem loopMeasure_init_le (deps : LoopDeps) (session0 : List Msg) :
    loopMeasure deps (initLoopSt deps session0) ≤ 100 * deps.maxSteps + 300 := by
  have hr : rankOf (initLoopSt deps session0) = 4 := by
    rw [rankOf_ne_CG _ (fun hq => LoopState.noConfusion hq)]
    rfl
  have hp := phaseOf_le_two deps (initLoopSt deps session0)
  have hs : (initLoopSt deps session0).runtime.step = 1 := rfl
  unfold loopMeasure
  rw [hr, hs]
  omega

/-- A `continue` decision of the main stage increments `step` by one. -/
theorem handleMainDecisionTurn_continue_step (deps : LoopDeps) (rt : LoopRuntime)
    (session : List Msg) (o : OracleStep) (d : MainDecision)
    (hm : o.main = MainDecisionOutcome.decided d)
    (hd : d.decision = DecisionKind.continueK) :
    (handleMainDecisionTurn deps rt session o).runtime.step = rt.step + 1 := by
  unfold handleMainDecisionTurn
  cases hft : d.forced_synthesis_enable_think <;> cases hg : d.guidance <;>
    simp [hm, hd, hft, hg]

/-- A structured failure of the main stage increments `step` by one. -/
theorem handleMainDecisionTurn_failure_step (deps : LoopDeps) (rt : LoopRuntime)
    (session : List Msg) (o : OracleStep) (reason : String)
    (hm : o.main = MainDecisionOutcome.failure reason) :
    (handleMainDecisionTurn deps rt session o).runtime.step = rt.step + 1 := by
  unfold handleMainDecisionTurn
  simp [hm]

/-- C4 — In every run of `runAgentLoop` with `maxSteps ≥ 1`, `runtime.step`
starts at `1`; it increases by exactly `1` when the worker handler
processes a `call_tool` or an `ask` action, and when the main-decision
handler reaches a `continue` decision or its failure branch (the
`MAIN_DECISION_FAIL` path, reached at the retry cap); and in every
reachable state of the loop `runtime.step ≤ maxSteps + 1`. -/
theorem step_discipline (deps : LoopDeps) (h1 : 1 ≤ deps.maxSteps)
    (oracle : Nat → OracleStep) (session0 : List Msg) :
    (initLoopSt deps session0).runtime.step = 1
    ∧ (∀ n, (loopRun deps oracle n (initLoopSt deps session0)).runtime.step
        ≤ deps.maxSteps + 1)
    ∧ (∀ (o : OracleStep) (st : LoopSt), st.state = LoopState.AcquireEvidence →
        guardCond deps st.state st.runtime st.session = false →
        st.runtime.step ≤ deps.maxSteps →
          (∀ cmd reason result, o.worker = WorkerTurnOutcome.callTool cmd reason result →
            (loopIter deps o st).runtime.step = st.runtime.step + 1)
          ∧ (∀ question answer, o.worker = WorkerTurnOutcome.ask question answer →
            (loopIter deps o st).runtime.step = st.runtime.step + 1))
    ∧ (∀ (o : OracleStep) (st : LoopSt), st.state = LoopState.AssessSufficiency →
        guardCond deps st.state st.runtime st.session = false →
          (∀ d, o.main = MainDecisionOutcome.decided d →
            d.decision = DecisionKind.continueK →
            (loopIter deps o st).runtime.step = st.runtime.step + 1)
          ∧ (∀ reason, o.main = MainDecisionOutcome.failure reason →
            (loopIter deps o st).runtime.step = st.runtime.step + 1)) := by
  refine ⟨rfl, ?_, ?_, ?_⟩
  · intro n
    exact (stepInv_loopRun deps h1 n oracle _ (stepInv_init deps session0)).2.1
  · intro o st hs hg hle
    have hd : st.state ≠ LoopState.Done := by
      rw [hs]
      intro hq
      exact LoopState.noConfusion hq
    have hg2 : ¬ guardCond deps st.state st.runtime st.session = true := by
      rw [hg]
      simp
    obtain ⟨w1, w2, w3⟩ := handleWorkerTurn_proj deps st.runtime st.session o
    obtain ⟨wf, wc, wa, wz⟩ := w3 hle
    constructor
    · intro cmd reason result hw
      rw [loopIter_dispatch_worker deps o st hd hg2 hs]
      exact (wc cmd reason result hw).2
    · intro question answer hw
      rw [loopIter_dispatch_worker deps o st hd hg2 hs]
      exact (wa question answer hw).2
  · intro o st hs hg
    have hd : st.state ≠ LoopState.Done := by
      rw [hs]
      intro hq
      exact LoopState.noConfusion hq
    have hg2 : ¬ guardCond deps st.state st.runtime st.session = true := by
      rw [hg]
      simp
    constructor
    · intro d hm hdk
      rw [loopIter_dispatch_main deps o st hd hg2 hs]
      exact handleMainDecisionTurn_continue_step deps st.runtime st.session o d hm hdk
    · intro reason hm
      rw [loopIter_dispatch_main deps o st hd hg2 hs]
      exact handleMainDecisionTurn_failure_step deps st.runtime st.session o reason hm

/-- Closed instantiation of the step-discipline theorem at
`sampleDeps` (`maxSteps = 3`), the all-defaults oracle and the empty
session. -/
theorem step_discipline_witness :
    1 ≤ sampleDeps.maxSteps
    ∧ ((initLoopSt sampleDeps []).runtime.step = 1
      ∧ (∀ n, (loopRun sampleDeps (fun _ => {}) n (initLoopSt sampleDeps [])).runtime.step
          ≤ sampleDeps.maxSteps + 1)
      ∧ (∀ (o : OracleStep) (st : LoopSt), st.state = LoopState.AcquireEvidence →
          guardCond sampleDeps st.state st.runtime st.session = false →
          st.runtime.step ≤ sampleDeps.maxSteps →
            (∀ cmd reason result, o.worker = WorkerTurnOutcome.callTool cmd reason result →
              (loopIter sampleDeps o st).runtime.step = st.runtime.step + 1)
            ∧ (∀ question answer, o.worker = WorkerTurnOutcome.ask question answer →
              (loopIter sampleDeps o st).runtime.step = st.runtime.step + 1))
      ∧ (∀ (o : OracleStep) (st : LoopSt), st.state = LoopState.AssessSufficiency →
          guardCond sampleDeps st.state st.runtime st.session = false →
            (∀ d, o.main = MainDecisionOutcome.decided d →
              d.decision = DecisionKind.continueK →
              (loopIter sampleDeps o st).runtime.step = st.runtime.step + 1)
            ∧ (∀ reason, o.main = MainDecisionOutcome.failure reason →
              (loopIter sampleDeps o st).runtime.step = st.runtime.step + 1))) :=
  ⟨by decide, step_discipline sampleDeps (by decide) (fun _ => {}) []⟩

/-- C5 — The orchestrator loop terminates for every run, assuming each
external call returns (the oracle supplies every outcome): starting from
the initial state, `100 * maxSteps + 300` iterations provably reach
`Done`; the `ForcedSynthesis` handler always returns `Done`;
`AcquireEvidence` returns `ForcedSynthesis` as soon as
`step > maxSteps`; and after a `ContextGuard` turn the compaction
signature guard cannot fire again immediately, preventing unbounded
re-entry. -/
theorem loop_terminates (deps : LoopDeps) (h1 : 1 ≤ deps.maxSteps)
    (oracle : Nat → OracleStep) (session0 : List Msg) :
    (loopRun deps oracle (100 * deps.maxSteps + 300) (initLoopSt deps session0)).state
        = LoopState.Done
    ∧ (∀ (o : OracleStep) (st : LoopSt), st.state = LoopState.ForcedSynthesis →
        guardCond deps st.state st.runtime st.session = false →
        (loopIter deps o st).state = LoopState.Done)
    ∧ (∀ (o : OracleStep) (st : LoopSt), st.state = LoopState.AcquireEvidence →
        guardCond deps st.state st.runtime st.session = false →
        deps.maxSteps < st.runtime.step →
        (loopIter deps o st).state = LoopState.ForcedSynthesis)
    ∧ (∀ (o : OracleStep) (st : LoopSt), st.state = LoopState.ContextGuard →
        guardCond deps (loopIter deps o st).state (loopIter deps o st).runtime
          (loopIter deps o st).session = false) := by
  refine ⟨?_, ?_, ?_, ?_⟩
  · exact loopRun_reaches_done deps h1 _ oracle _ (stepInv_init deps session0)
      (loopMeasure_init_le deps session0)
  · intro o st hs hg
    have hd : st.state ≠ LoopState.Done := by
      rw [hs]
      intro hq
      exact LoopState.noConfusion hq
    have hg2 : ¬ guardCond deps st.state st.runtime st.session = true := by
      rw [hg]
      simp
    rw [loopIter_dispatch_forced deps o st hd hg2 hs]
    exact (handleForceFinalizeTurn_proj deps st.runtime st.session o).1
  · intro o st hs hg hcap
    have hd : st.state ≠ LoopState.Done := by
      rw [hs]
      intro hq
      exact LoopState.noConfusion hq
    have hg2 : ¬ guardCond deps st.state st.runtime st.session = true := by
      rw [hg]
      simp
    rw [loopIter_dispatch_worker deps o st hd hg2 hs]
    exact ((handleWorkerTurn_proj deps st.runtime st.session o).2.1 hcap).1
  · intro o st hs
    exact guard_false_after_CG deps o st hs

/-- Closed instantiation of the termination theorem at `sampleDeps`
(`maxSteps = 3`), the all-defaults oracle and the empty session. -/
theorem loop_terminates_witness :
    1 ≤ sampleDeps.maxSteps
    ∧ ((loopRun sampleDeps (fun _ => {}) (100 * sampleDeps.maxSteps + 300)
          (initLoopSt sampleDeps [])).state = LoopState.Done
      ∧ (∀ (o : OracleStep) (st : LoopSt), st.state = LoopState.ForcedSynthesis →
          guardCond sampleDeps st.state st.runtime st.session = false →
          (loopIter sampleDeps o st).state = LoopState.Done)
      ∧ (∀ (o : OracleStep) (st : LoopSt), st.state = LoopState.AcquireEvidence →
          guardCond sampleDeps st.state st.runtime st.session = false →
          sampleDeps.maxSteps < st.runtime.step →
          (loopIter sampleDeps o st).state = LoopState.ForcedSynthesis)
      ∧ (∀ (o : OracleStep) (st : LoopSt), st.state = LoopState.ContextGuard →
          guardCond sampleDeps (loopIter sampleDeps o st).state
            (loopIter sampleDeps o st).runtime (loopIter sampleDeps o st).session = false)) :=
  ⟨by decide, loop_terminates sampleDeps (by decide) (fun _ => {}) []⟩

end Senaka
